import Mathlib

/-!
# vkw — the Vulkan wrapper library

Shallow embedding of `src/src/Memory.cpp` (the offset-packing arena), and of the parts of
`src/src/Device.cpp`, `src/src/RenderPass.cpp`, `src/src/GraphicsPipeline.cpp`,
`GraphicsPipeline.hpp`, `AccelerationStructureBuildInfo.hpp` and `utils.hpp` that the claims
are about.

* `VkDeviceSize` values are natural numbers; every addition the source performs on them is
  reduced modulo `2 ^ 64`, as unsigned 64-bit arithmetic does.
* `offset % align` with `align = 0` and a member access through a null `device_` are
  undefined behaviour in the source; the embedding yields `none` there.
* Calls into the driver (`vkGetPhysicalDeviceMemoryProperties`, `vkAllocateMemory`,
  `bindResource`, `vkFreeMemory`) are recorded in a trace of `Call`s, and their results are
  supplied by a `Driver` record.
-/

namespace vkw

/-- Modulus of `VkDeviceSize` (`uint64_t`) arithmetic. -/
def UINT64_MOD : Nat := 2 ^ 64

/-- The value `~uint32_t(0)` that `findMemoryType` returns when nothing is found. -/
def NOT_FOUND : Nat := 0xFFFFFFFF

/-- `VK_NULL_HANDLE`. -/
def VK_NULL_HANDLE : Nat := 0

/-- The memory fields of a registered resource (`Buffer`, `Image`) that `Memory` reads and
writes: `memSize_`, `memAlign_` and `memTypeBits_` are captured from `VkMemoryRequirements`
when the resource is created, `memOffset_` is written by `Memory::allocate`. -/
structure MemObject where
  memSize_ : Nat
  memAlign_ : Nat
  memTypeBits_ : Nat
  memOffset_ : Nat
deriving DecidableEq, Repr

/-- A call made to the driver or to a resource's `bindResource`. -/
inductive Call where
  | getMemoryProperties
  | allocateMemory (allocationSize : Nat) (memoryTypeIndex : Nat)
  | bindResource (index : Nat) (mem : Nat) (offset : Nat)
  | freeMemory (mem : Nat)
deriving DecidableEq, Repr

/-- What the outside world answers to the calls of `Memory`:
`memoryTypes` holds the `propertyFlags` of the first `memoryTypeCount` entries of
`VkPhysicalDeviceMemoryProperties::memoryTypes`; `allocateMemory size index` is
`some handle` when `vkAllocateMemory` returns `VK_SUCCESS` and writes `handle`, `none`
otherwise; `bindResource i mem offset` is the result of `memObjects_[i]->bindResource`;
`failedAllocationWrites size index` is what a failing `vkAllocateMemory` does to the
`VkDeviceMemory` it is given a pointer to: `some value` when it writes `value` there, `none`
when it leaves it as it was. -/
structure Driver where
  memoryTypes : List Nat
  allocateMemory : Nat → Nat → Option Nat
  bindResource : Nat → Nat → Nat → Bool
  failedAllocationWrites : Nat → Nat → Option Nat

/-- The data members of `vkw::Memory`. `device_` is `none` for `nullptr`. -/
structure Memory where
  device_ : Option Nat
  allocatedSize_ : Nat
  propertyFlags_ : Nat
  memory_ : Nat
  memObjects_ : List MemObject
  initialized_ : Bool
deriving DecidableEq, Repr

/-- Index of the first entry at or after position `i` that satisfies `p`
(one `for` loop of `findMemoryType`). -/
def findFrom (p : Nat → Bool) (i : Nat) : List Nat → Option Nat
  | [] => none
  | flags :: rest => if p flags then some i else findFrom p (i + 1) rest

/-- `Memory::findMemoryType` (Memory.cpp 141-166): first an entry whose flags equal
`properties`, then an entry whose flags contain `properties`, else `~uint32_t(0)`. -/
def findMemoryType (memoryTypes : List Nat) (properties : Nat) : Nat :=
  match findFrom (fun flags => flags == properties) 0 memoryTypes with
  | some i => i
  | none =>
    match findFrom (fun flags => (flags &&& properties) == properties) 0 memoryTypes with
    | some i => i
    | none => NOT_FOUND

/-- The loop of `Memory::allocate` over `memObjects_[1..]` (Memory.cpp 93-104).
`offset` is the running offset, `offsets` the vector filled so far; the result is the
completed vector and the final value of `offset`. -/
def packLoop (offset : Nat) (offsets : List Nat) : List MemObject → Option (List Nat × Nat)
  | [] => some (offsets, offset)
  | obj :: rest =>
    let align := obj.memAlign_
    if align = 0 then none
    else
      let rem := offset % align
      let offset1 := if rem > 0 then (offset + (align - rem)) % UINT64_MOD else offset
      packLoop ((offset1 + obj.memSize_) % UINT64_MOD) (offsets ++ [offset1]) rest

/-- Lines 80-106 of `Memory::allocate` once `objCount != 0` is known: the vector `offsets`
and the value `requiredSize` put into `allocateInfo.allocationSize`. For the empty list
nothing is computed (`allocate` has returned already). -/
def computeLayout : List MemObject → Option (List Nat × Nat)
  | [] => none
  | first :: rest =>
    match packLoop ((0 + first.memSize_) % UINT64_MOD) [0] rest with
    | none => none
    | some (offsets, offset) =>
      some (offsets, (offset + ((first :: rest).getLast (by simp)).memSize_) % UINT64_MOD)

/-- The bind loop of `Memory::allocate` (Memory.cpp 123-127), started at index `i`:
writes `memOffset_`, calls `bindResource`, stops at the first failure. -/
def bindLoop (drv : Driver) (mem : Nat) (i : Nat) :
    List MemObject → List Nat → Bool × List MemObject × List Call
  | obj :: objs, off :: offs =>
    let obj1 := { obj with memOffset_ := off }
    if drv.bindResource i mem off then
      let r := bindLoop drv mem (i + 1) objs offs
      (r.1, obj1 :: r.2.1, Call.bindResource i mem off :: r.2.2)
    else (false, obj1 :: objs, [Call.bindResource i mem off])
  | objs, _ => (true, objs, [])

/-- `Memory::allocate` (Memory.cpp 78-130): the returned `bool`, the arena afterwards and
the calls made, in order. `none` stands for undefined behaviour: a zero alignment at
line 97, or a null `device_` dereferenced from line 107 on. `vkAllocateMemory` is given
`&memory_` (line 120): when it fails, `memory_` holds whatever the driver wrote, or its old
value if the driver wrote nothing. -/
def allocate (drv : Driver) (m : Memory) : Option (Bool × Memory × List Call) :=
  if m.memObjects_.length = 0 then some (false, m, [])
  else
    match computeLayout m.memObjects_ with
    | none => none
    | some (offsets, requiredSize) =>
      match m.device_ with
      | none => none
      | some _ =>
        let memIndex := findMemoryType drv.memoryTypes m.propertyFlags_
        if memIndex = NOT_FOUND then some (false, m, [Call.getMemoryProperties])
        else
          match drv.allocateMemory requiredSize memIndex with
          | none =>
            some (false,
              { m with
                memory_ := (drv.failedAllocationWrites requiredSize memIndex).getD m.memory_ },
              [Call.getMemoryProperties, Call.allocateMemory requiredSize memIndex])
          | some handle =>
            let r := bindLoop drv handle 0 m.memObjects_ offsets
            some (r.1, { m with memory_ := handle, memObjects_ := r.2.1 },
              [Call.getMemoryProperties, Call.allocateMemory requiredSize memIndex] ++ r.2.2)

/-- `Memory::release` (Memory.cpp 132-139): the arena afterwards and the calls made.
`none` stands for the undefined behaviour of `device_->getHandle()` on a null `device_`. -/
def release (m : Memory) : Option (Memory × List Call) :=
  if m.memory_ ≠ VK_NULL_HANDLE then
    match m.device_ with
    | none => none
    | some _ => some ({ m with memory_ := VK_NULL_HANDLE }, [Call.freeMemory m.memory_])
  else some (m, [])

/-- `Memory::clear` (Memory.cpp 63-76): `release()`, then every member is reset. The
destructors that `memObjects_.clear()` runs on the resources are not part of the trace. -/
def clear (m : Memory) : Option (Memory × List Call) :=
  match release m with
  | none => none
  | some (m1, calls) =>
    some ({ m1 with
            memObjects_ := [], device_ := none, allocatedSize_ := 0, propertyFlags_ := 0,
            memory_ := VK_NULL_HANDLE, initialized_ := false }, calls)

/-- `Memory::init` (Memory.cpp 47-61): the returned `bool` and the arena afterwards. -/
def init (device : Nat) (properties : Nat) (m : Memory) : Bool × Memory :=
  if !m.initialized_ then
    (true, { m with
             device_ := some device, propertyFlags_ := properties,
             memory_ := VK_NULL_HANDLE, initialized_ := true })
  else (true, m)

/-- Number of `vkAllocateMemory` calls of a trace that the driver answered with
`VK_SUCCESS`. -/
def successfulAllocations (drv : Driver) : List Call → Nat
  | [] => 0
  | Call.allocateMemory size index :: rest =>
    (if (drv.allocateMemory size index).isSome then 1 else 0) + successfulAllocations drv rest
  | _ :: rest => successfulAllocations drv rest

/-- Number of `vkFreeMemory` calls of a trace. -/
def freeCalls : List Call → Nat
  | [] => 0
  | Call.freeMemory _ :: rest => 1 + freeCalls rest
  | _ :: rest => freeCalls rest

/-- A call of one of the four lifetime operations of an arena; `allocate` carries the
answers the driver gives during that call. -/
inductive Op where
  | init (device : Nat) (properties : Nat)
  | allocate (drv : Driver)
  | release
  | clear

/-- An arena together with the count of successful `vkAllocateMemory` calls and of
`vkFreeMemory` calls made on its behalf so far. -/
structure Ledger where
  arena : Memory
  allocations : Nat
  frees : Nat
deriving DecidableEq, Repr

/-- One operation on the arena of a ledger, with the counts brought up to date. -/
def step (w : Ledger) : Op → Option Ledger
  | Op.init device properties => some { w with arena := (init device properties w.arena).2 }
  | Op.allocate drv =>
    match allocate drv w.arena with
    | none => none
    | some r =>
      some ⟨r.2.1, w.allocations + successfulAllocations drv r.2.2, w.frees + freeCalls r.2.2⟩
  | Op.release =>
    match release w.arena with
    | none => none
    | some r => some ⟨r.1, w.allocations, w.frees + freeCalls r.2⟩
  | Op.clear =>
    match clear w.arena with
    | none => none
    | some r => some ⟨r.1, w.allocations, w.frees + freeCalls r.2⟩

/-- A sequence of operations on one arena, from left to right. -/
def run (w : Ledger) : List Op → Option Ledger
  | [] => some w
  | op :: ops =>
    match step w op with
    | none => none
    | some w1 => run w1 ops

/-- Along the run of `ops` from `w`, every `allocate` is called while the arena holds no
allocation (`memory_` is `VK_NULL_HANDLE`). -/
def allocateOnlyWhenReleased (w : Ledger) : List Op → Bool
  | [] => true
  | op :: ops =>
    (match op with
      | Op.allocate _ => w.arena.memory_ == VK_NULL_HANDLE
      | _ => true) &&
    (match step w op with
      | none => true
      | some w1 => allocateOnlyWhenReleased w1 ops)

/-- A successful `vkAllocateMemory` hands out a handle other than `VK_NULL_HANDLE`. -/
def Driver.handlesValid (drv : Driver) : Prop :=
  ∀ size index handle, drv.allocateMemory size index = some handle → handle ≠ VK_NULL_HANDLE

/-- A failing `vkAllocateMemory` writes nothing, or `VK_NULL_HANDLE`, through the pointer it
is given. -/
def Driver.failureLeavesNull (drv : Driver) : Prop :=
  ∀ size index value, drv.failedAllocationWrites size index = some value →
    value = VK_NULL_HANDLE

/-- The drivers met by the `allocate` calls of a sequence all hand out valid handles on
success and write nothing but `VK_NULL_HANDLE` on failure. -/
def driversValid : List Op → Prop
  | [] => True
  | Op.allocate drv :: ops =>
    (drv.handlesValid ∧ drv.failureLeavesNull) ∧ driversValid ops
  | _ :: ops => driversValid ops

/-- The states an arena can be in between two calls: a device is set only by `init`, an
allocation or a registered resource implies a device, and every registered resource has a
non-zero alignment. -/
def Memory.WellFormed (m : Memory) : Prop :=
  (m.device_ ≠ none → m.initialized_ = true) ∧
  (m.memory_ ≠ VK_NULL_HANDLE → m.device_ ≠ none) ∧
  (m.memObjects_ ≠ [] → m.device_ ≠ none) ∧
  (∀ o ∈ m.memObjects_, 0 < o.memAlign_)

/-- The counts of a ledger agree with its arena: the arena is well formed and the successful
allocations exceed the frees by one when the arena holds a handle and by nothing when it
holds none. -/
def Ledger.Consistent (w : Ledger) : Prop :=
  w.arena.WellFormed ∧
  w.allocations = w.frees + (if w.arena.memory_ = VK_NULL_HANDLE then 0 else 1)

/-- The bind calls the bind loop makes for the offsets `offs` when none fails, the first
one for index `i`; used only inside proofs. -/
def bindCalls (mem : Nat) (i : Nat) : List Nat → List Call
  | [] => []
  | off :: offs => Call.bindResource i mem off :: bindCalls mem (i + 1) offs

/-- Round `offset` up as the packing loop does, in unbounded arithmetic. -/
def roundUp (offset align : Nat) : Nat :=
  if offset % align > 0 then offset + (align - offset % align) else offset

/-- The end of the last resource when the packing of `Memory::allocate` is carried out in
unbounded arithmetic, starting at `offset`. No addition of the packing loop overflows
`uint64_t` exactly when `exactEnd 0 objs < UINT64_MOD`, the running offset never
decreasing. -/
def exactEnd (offset : Nat) : List MemObject → Nat
  | [] => offset
  | obj :: rest => exactEnd (roundUp offset obj.memAlign_ + obj.memSize_) rest

/-- The offsets the packing of `Memory::allocate` yields in unbounded arithmetic, starting
at `offset`; used only inside proofs. -/
def exactOffsets (offset : Nat) : List MemObject → List Nat
  | [] => []
  | obj :: rest =>
    roundUp offset obj.memAlign_ ::
      exactOffsets (roundUp offset obj.memAlign_ + obj.memSize_) rest

/-- A driver with one memory type of flags `1` on which every allocation succeeds with
handle `7` and every bind succeeds. -/
def driverOk : Driver := ⟨[1], fun _ _ => some 7, fun _ _ _ => true, fun _ _ => none⟩

/-- An initialised arena with property mask `1`, no allocation yet, and the given registered
resources. -/
def arenaOf (objs : List MemObject) : Memory := ⟨some 0, 0, 1, VK_NULL_HANDLE, objs, true⟩

/-- A driver whose only memory type has flags `2`. -/
def driverNoMatch : Driver := ⟨[2], fun _ _ => some 7, fun _ _ _ => true, fun _ _ => none⟩

/-- A driver whose memory types have flags `3` then `1`: for the mask `1` the first is a
strict superset, the second an exact match. -/
def driverExactSecond : Driver :=
  ⟨[3, 1], fun _ _ => some 7, fun _ _ _ => true, fun _ _ => none⟩

/-- A driver whose memory types have flags `2` then `3`: for the mask `1` only the second
contains the mask, and none equals it. -/
def driverSupersetOnly : Driver :=
  ⟨[2, 3], fun _ _ => some 7, fun _ _ _ => true, fun _ _ => none⟩

/-- A driver on which `vkAllocateMemory` fails. -/
def driverAllocFails : Driver := ⟨[1], fun _ _ => none, fun _ _ _ => true, fun _ _ => none⟩

/-- A driver on which `vkAllocateMemory` fails after writing the value `9` through the
pointer it is given. -/
def driverAllocFailsWrites : Driver :=
  ⟨[1], fun _ _ => none, fun _ _ _ => true, fun _ _ => some 9⟩

/-- A driver on which the bind of the resource of index `1` fails. -/
def driverBindFails : Driver :=
  ⟨[1], fun _ _ => some 7, fun i _ _ => decide (i ≠ 1), fun _ _ => none⟩

/-- An initialised arena that holds the allocation handle `7` for the resources
`{256, 256}`, `{37, 64}` bound at the offsets `0` and `256`. -/
def arenaAllocated : Memory :=
  ⟨some 0, 0, 1, 7, [⟨256, 256, 0, 0⟩, ⟨37, 64, 0, 256⟩], true⟩

/-- Two registered resources: `{size=256, align=256}` then `{size=37, align=64}`. -/
def sceneA : List MemObject := [⟨256, 256, 0, 0⟩, ⟨37, 64, 0, 0⟩]

/-- Two registered resources: `{size=10, align=16}` then `{size=10, align=4}`. -/
def sceneB : List MemObject := [⟨10, 16, 0, 0⟩, ⟨10, 4, 0, 0⟩]


/-- `Memory::operator=(Memory&&)` (Memory.cpp 28-43) for two distinct arenas `*this` and
`cp`: `this->clear()`, then each member is swapped with the one of `cp`. The result is
`*this` afterwards, `cp` afterwards, and the calls made. -/
def Memory.moveAssign (self cp : Memory) : Option (Memory × Memory × List Call) :=
  match clear self with
  | none => none
  | some (cleared, calls) =>
    some ({ device_ := cp.device_,
            allocatedSize_ := cp.allocatedSize_,
            propertyFlags_ := cp.propertyFlags_,
            memory_ := cp.memory_,
            memObjects_ := cp.memObjects_,
            initialized_ := cp.initialized_ },
          { device_ := cleared.device_,
            allocatedSize_ := cleared.allocatedSize_,
            propertyFlags_ := cleared.propertyFlags_,
            memory_ := cleared.memory_,
            memObjects_ := cleared.memObjects_,
            initialized_ := cleared.initialized_ },
          calls)

/-- Modulus of `uint32_t` arithmetic. -/
def UINT32_MOD : Nat := 2 ^ 32

/-- `divUp` (utils.hpp 37): `(n + val - 1) / val` in `uint32_t` arithmetic, the sum and the
difference each reduced modulo `2 ^ 32`. `none` stands for the undefined behaviour of a
division by zero. -/
def divUp (n val : Nat) : Option Nat :=
  if val = 0 then none
  else some ((((n + val) % UINT32_MOD + UINT32_MOD - 1) % UINT32_MOD) / val)

/-- `VK_BUFFER_USAGE_ACCELERATION_STRUCTURE_BUILD_INPUT_READ_ONLY_BIT_KHR` of the Vulkan
headers. -/
def VK_BUFFER_USAGE_ACCELERATION_STRUCTURE_BUILD_INPUT_READ_ONLY_BIT_KHR : Nat := 0x00080000

/-- What a constructor call ends in: the object is constructed, or an exception with the
given message is thrown. -/
inductive Construction where
  | constructed
  | threw (what : String)
deriving DecidableEq, Repr

/-- The C++ operator `!` applied to an integer: `1` for zero, `0` for anything else. -/
def logicalNot (x : Nat) : Nat := if x = 0 then 1 else 0

/-- The buffer-based constructor of `AccelerationStructureTriangleData`
(AccelerationStructureBuildInfo.hpp 63-94), as a function of the usage flags of the three
buffers. Each test is written `!usage & BIT` in the source, which C++ reads as
`(!usage) & BIT`. -/
def triangleDataFromBuffers (vertexUsage indexUsage transformUsage : Nat) : Construction :=
  if (logicalNot vertexUsage
        &&& VK_BUFFER_USAGE_ACCELERATION_STRUCTURE_BUILD_INPUT_READ_ONLY_BIT_KHR) ≠ 0 then
    Construction.threw "Wrong buffer usage for acceleration structure geometry"
  else if (logicalNot indexUsage
        &&& VK_BUFFER_USAGE_ACCELERATION_STRUCTURE_BUILD_INPUT_READ_ONLY_BIT_KHR) ≠ 0 then
    Construction.threw "Wrong buffer usage for acceleration structure geometry"
  else if (logicalNot transformUsage
        &&& VK_BUFFER_USAGE_ACCELERATION_STRUCTURE_BUILD_INPUT_READ_ONLY_BIT_KHR) ≠ 0 then
    Construction.threw "Wrong buffer usage for acceleration structure geometry"
  else Construction.constructed

/-- Two resources that differ from `sceneA` in every field, the allowed-memory-type mask
included. -/
def sceneC : List MemObject := [⟨64, 8, 0xFF, 0⟩, ⟨100, 32, 0x2, 0⟩, ⟨5, 4, 0x1, 0⟩]

/-- `VK_TRUE` of the Vulkan headers. -/
def VK_TRUE : Nat := 1

/-- `VK_FALSE` of the Vulkan headers. -/
def VK_FALSE : Nat := 0

/-- `VK_QUEUE_GRAPHICS_BIT` of the Vulkan headers. -/
def VK_QUEUE_GRAPHICS_BIT : Nat := 0x1

/-- `VK_QUEUE_COMPUTE_BIT` of the Vulkan headers. -/
def VK_QUEUE_COMPUTE_BIT : Nat := 0x2

/-- `VK_QUEUE_TRANSFER_BIT` of the Vulkan headers. -/
def VK_QUEUE_TRANSFER_BIT : Nat := 0x4

/-- `QueueUsageBits::VKW_QUEUE_GRAPHICS_BIT` (Queue.hpp 29). -/
def VKW_QUEUE_GRAPHICS_BIT : Nat := 0x01

/-- `QueueUsageBits::VKW_QUEUE_COMPUTE_BIT` (Queue.hpp 30). -/
def VKW_QUEUE_COMPUTE_BIT : Nat := 0x02

/-- `QueueUsageBits::VKW_QUEUE_TRANSFER_BIT` (Queue.hpp 31). -/
def VKW_QUEUE_TRANSFER_BIT : Nat := 0x04

/-- `QueueUsageBits::VKW_QUEUE_PRESENT_BIT` (Queue.hpp 32). -/
def VKW_QUEUE_PRESENT_BIT : Nat := 0x08

/-- `Device::maxQueueCount` (Device.hpp 82). -/
def maxQueueCount : Nat := 32

/-- The data members of `vkw::Queue` (Queue.hpp 90-95). -/
structure Queue where
  flags_ : Nat
  queueFamilyIndex_ : Nat
  queueIndex_ : Nat
  queue_ : Nat
deriving DecidableEq, Repr

/-- The data members of `vkw::Device` (Device.hpp 76-91). `instance_` is `none` for
`nullptr`; `deviceFeatures_` lists the `VkBool32` members of `VkPhysicalDeviceFeatures` in
order (`[]` for the value-initialised structure); of `deviceProperties_` only `deviceType` is
kept; each entry of `queuePriorities_` stands for one `float`. -/
structure Device where
  instance_ : Option Nat
  deviceFeatures_ : List Nat
  deviceProperties_ : Nat
  physicalDevice_ : Nat
  queuePriorities_ : List Nat
  presentSupported_ : Bool
  deviceQueues_ : List Queue
  device_ : Nat
  meshShadersSupported_ : Bool
  initialized_ : Bool
deriving DecidableEq, Repr

/-- `Device::clear` (Device.cpp 110-127): the device afterwards and the handles passed to
`vkDestroyDevice`. -/
def Device.clear (d : Device) : Device × List Nat :=
  ({ d with
     instance_ := none, deviceFeatures_ := [], deviceProperties_ := 0,
     physicalDevice_ := VK_NULL_HANDLE, deviceQueues_ := [], device_ := VK_NULL_HANDLE,
     initialized_ := false },
   if d.physicalDevice_ ≠ VK_NULL_HANDLE then [d.device_] else [])

/-- `Device::operator=(Device&&)` (Device.cpp 44-59) for two distinct devices `*this` and
`cp`: `this->clear()`, then the members named in the source are swapped, the others are
left where they are. The result is `*this` afterwards, `cp` afterwards, and the handles
passed to `vkDestroyDevice`. -/
def Device.moveAssign (self cp : Device) : Device × Device × List Nat :=
  let cleared := (Device.clear self).1
  ({ cleared with
     instance_ := cp.instance_, deviceFeatures_ := cp.deviceFeatures_,
     deviceProperties_ := cp.deviceProperties_, physicalDevice_ := cp.physicalDevice_,
     device_ := cp.device_, initialized_ := cp.initialized_ },
   { cp with
     instance_ := cleared.instance_, deviceFeatures_ := cleared.deviceFeatures_,
     deviceProperties_ := cleared.deviceProperties_, physicalDevice_ := cleared.physicalDevice_,
     device_ := cleared.device_, initialized_ := cleared.initialized_ },
   (Device.clear self).2)

/-- The loop of `Device::getQueues` (Device.cpp 133-139): `ret` is the vector filled so
far. -/
def getQueuesLoop (requiredFlags : Nat) (ret : List Queue) : List Queue → List Queue
  | [] => ret
  | queue :: rest =>
    if (queue.flags_ &&& requiredFlags) = requiredFlags then
      getQueuesLoop requiredFlags (ret ++ [queue]) rest
    else getQueuesLoop requiredFlags ret rest

/-- `Device::getQueues` (Device.cpp 129-142). -/
def Device.getQueues (d : Device) (requiredFlags : Nat) : List Queue :=
  getQueuesLoop requiredFlags [] d.deviceQueues_

/-- What `vkGetPhysicalDeviceProperties` and `vkGetPhysicalDeviceFeatures` report for one
enumerated physical device: its handle, its `deviceType`, and the `VkBool32` members of its
`VkPhysicalDeviceFeatures` in order. -/
structure PhysicalDevice where
  handle : Nat
  deviceType : Nat
  features : List Nat
deriving DecidableEq, Repr

/-- `Device::checkFeaturesCompatibility` (Device.cpp 190-208): the loop over the `VkBool32`
members of the two structures, both given as lists of `featureCount` entries. -/
def checkFeaturesCompatibility : List Nat → List Nat → Bool
  | required :: reqRest, available :: devRest =>
    if required = VK_TRUE ∧ available = VK_FALSE then false
    else checkFeaturesCompatibility reqRest devRest
  | _, _ => true

/-- The inner loop of `Device::getPhysicalDevice` (Device.cpp 163-184) for one
`deviceType`: the first physical device of that type with compatible features. -/
def findCompatibleDevice (requiredFeatures : List Nat) (deviceType : Nat) :
    List PhysicalDevice → Option PhysicalDevice
  | [] => none
  | physicalDevice :: rest =>
    if physicalDevice.deviceType = deviceType
        ∧ checkFeaturesCompatibility requiredFeatures physicalDevice.features = true then
      some physicalDevice
    else findCompatibleDevice requiredFeatures deviceType rest

/-- The outer loop of `Device::getPhysicalDevice` (Device.cpp 161-185) over
`requiredTypes`. -/
def selectPhysicalDevice (requiredFeatures : List Nat) (physicalDevices : List PhysicalDevice) :
    List Nat → Option PhysicalDevice
  | [] => none
  | deviceType :: rest =>
    match findCompatibleDevice requiredFeatures deviceType physicalDevices with
    | some physicalDevice => some physicalDevice
    | none => selectPhysicalDevice requiredFeatures physicalDevices rest

/-- `Device::getPhysicalDevice` (Device.cpp 144-188), `physicalDevices` being what
`vkEnumeratePhysicalDevices` reports: the returned `bool` and the device afterwards. `none`
stands for the undefined behaviour of `instance_->getHandle()` on a null `instance_`. -/
def Device.getPhysicalDevice (d : Device) (requiredFeatures : List Nat)
    (requiredTypes : List Nat) (physicalDevices : List PhysicalDevice) :
    Option (Bool × Device) :=
  match d.instance_ with
  | none => none
  | some _ =>
    if physicalDevices.length = 0 then some (false, d)
    else
      match selectPhysicalDevice requiredFeatures physicalDevices requiredTypes with
      | some physicalDevice =>
        some (true, { d with
                      deviceFeatures_ := physicalDevice.features,
                      deviceProperties_ := physicalDevice.deviceType,
                      physicalDevice_ := physicalDevice.handle })
      | none => some (false, d)

/-- An initialised device with a graphics+compute queue and a transfer queue. -/
def deviceWithQueues : Device :=
  ⟨some 1, [1, 0], 2, 11, [], false, [⟨3, 0, 0, 21⟩, ⟨4, 1, 0, 22⟩], 12, false, true⟩

/-- A default-constructed device. -/
def deviceEmpty : Device := ⟨none, [], 0, VK_NULL_HANDLE, [], false, [], VK_NULL_HANDLE, false, false⟩

/-- An integrated GPU (`deviceType` 1) with handle `31`, offering both of two features. -/
def gpuIntegrated : PhysicalDevice := ⟨31, 1, [1, 1]⟩

/-- A discrete GPU (`deviceType` 2) with handle `32`, offering the first of two features. -/
def gpuDiscrete : PhysicalDevice := ⟨32, 2, [1, 0]⟩

/-- A device whose `instance_` is set and nothing else. -/
def deviceWithInstance : Device :=
  ⟨some 1, [], 0, VK_NULL_HANDLE, [], false, [], VK_NULL_HANDLE, false, false⟩

/-- The members of `VkSubpassDescription` that `RenderPass` gives a value other than zero or
null; a pointer obtained from `vector::data()` is modelled by the vector it points into. -/
structure SubpassDescription where
  colorAttachmentCount : Nat
  pColorAttachments : Option (List Nat)
  pResolveAttachments : Option (List Nat)
  pDepthStencilAttachment : Option (List Nat)
deriving DecidableEq, Repr

/-- The data members of `vkw::RenderPass` that the sub-pass functions and `create` use. An
attachment reference is modelled by its attachment index, its layout being the same for
every reference of one list. -/
structure RenderPass where
  renderPass_ : Nat
  subPasses_ : List SubpassDescription
  colorReferenceList_ : List (List Nat)
  depthStencilReferenceList_ : List (List Nat)
  resolveReferenceList_ : List (List Nat)
deriving DecidableEq, Repr

/-- The `VkSubpassDescription` every sub-pass function appends. -/
def newSubPass (colorAttachments : List Nat) : SubpassDescription :=
  ⟨colorAttachments.length % UINT32_MOD, none, none, none⟩

/-- `RenderPass::addSubPass(colorAttachments, bindPoint)` (RenderPass.cpp 215-248); `none`
stands for the exception thrown. -/
def RenderPass.addSubPass (rp : RenderPass) (colorAttachments : List Nat) : Option RenderPass :=
  if rp.renderPass_ ≠ VK_NULL_HANDLE then none
  else
    some { rp with
           colorReferenceList_ := rp.colorReferenceList_ ++ [colorAttachments],
           subPasses_ := rp.subPasses_ ++ [newSubPass colorAttachments] }

/-- `RenderPass::addSubPass(colorAttachments, depthStencilAttachments, bindPoint)`
(RenderPass.cpp 250-301); `none` stands for an exception thrown. -/
def RenderPass.addSubPassDepth (rp : RenderPass)
    (colorAttachments depthStencilAttachments : List Nat) : Option RenderPass :=
  if rp.renderPass_ ≠ VK_NULL_HANDLE then none
  else if colorAttachments.length ≠ depthStencilAttachments.length then none
  else
    some { rp with
           colorReferenceList_ := rp.colorReferenceList_ ++ [colorAttachments],
           depthStencilReferenceList_ :=
             rp.depthStencilReferenceList_ ++ [depthStencilAttachments],
           subPasses_ := rp.subPasses_ ++ [newSubPass colorAttachments] }

/-- `RenderPass::addSubPassWithResolve(colorAttachments, resolveAttachments, bindPoint)`
(RenderPass.cpp 303-355); `none` stands for an exception thrown. -/
def RenderPass.addSubPassWithResolve (rp : RenderPass)
    (colorAttachments resolveAttachments : List Nat) : Option RenderPass :=
  if rp.renderPass_ ≠ VK_NULL_HANDLE then none
  else if colorAttachments.length ≠ resolveAttachments.length then none
  else
    some { rp with
           colorReferenceList_ := rp.colorReferenceList_ ++ [colorAttachments],
           resolveReferenceList_ := rp.resolveReferenceList_ ++ [resolveAttachments],
           subPasses_ := rp.subPasses_ ++ [newSubPass colorAttachments] }

/-- `RenderPass::addSubPassWithResolve(colorAttachments, depthStencilAttachments,
resolveAttachments, bindPoint)` (RenderPass.cpp 357-425); `none` stands for an exception
thrown. -/
def RenderPass.addSubPassWithResolveDepth (rp : RenderPass)
    (colorAttachments depthStencilAttachments resolveAttachments : List Nat) :
    Option RenderPass :=
  if rp.renderPass_ ≠ VK_NULL_HANDLE then none
  else if colorAttachments.length ≠ depthStencilAttachments.length then none
  else if colorAttachments.length ≠ resolveAttachments.length then none
  else
    some { rp with
           colorReferenceList_ := rp.colorReferenceList_ ++ [colorAttachments],
           depthStencilReferenceList_ :=
             rp.depthStencilReferenceList_ ++ [depthStencilAttachments],
           resolveReferenceList_ := rp.resolveReferenceList_ ++ [resolveAttachments],
           subPasses_ := rp.subPasses_ ++ [newSubPass colorAttachments] }

/-- A call of one of the four sub-pass functions. -/
inductive SubPassCall where
  | addSubPass (colorAttachments : List Nat)
  | addSubPassDepth (colorAttachments depthStencilAttachments : List Nat)
  | addSubPassWithResolve (colorAttachments resolveAttachments : List Nat)
  | addSubPassWithResolveDepth
      (colorAttachments depthStencilAttachments resolveAttachments : List Nat)
deriving DecidableEq, Repr

/-- One sub-pass call on a render pass; `none` when it throws. -/
def RenderPass.call (rp : RenderPass) : SubPassCall → Option RenderPass
  | SubPassCall.addSubPass c => rp.addSubPass c
  | SubPassCall.addSubPassDepth c d => rp.addSubPassDepth c d
  | SubPassCall.addSubPassWithResolve c r => rp.addSubPassWithResolve c r
  | SubPassCall.addSubPassWithResolveDepth c d r => rp.addSubPassWithResolveDepth c d r

/-- A sequence of sub-pass calls, from left to right; `none` when one of them throws. -/
def RenderPass.calls (rp : RenderPass) : List SubPassCall → Option RenderPass
  | [] => some rp
  | c :: rest =>
    match rp.call c with
    | none => none
    | some rp1 => RenderPass.calls rp1 rest

/-- The body of the first loop of `RenderPass::create` (RenderPass.cpp 90-98) for the index
`i`. `none` stands for the undefined behaviour of `operator[]` at a position that is not
below the size of the vector. -/
def RenderPass.updateSubPass (rp : RenderPass) (useDepthStencil useResolve : Bool)
    (subPasses : List SubpassDescription) (i : Nat) : Option (List SubpassDescription) :=
  match subPasses[i]?, rp.colorReferenceList_[i]? with
  | some subPass, some colors =>
    let s1 := { subPass with pColorAttachments := some colors }
    let s2 :=
      if useDepthStencil then
        match rp.depthStencilReferenceList_[i]? with
        | some depth => some { s1 with pDepthStencilAttachment := some depth }
        | none => none
      else some s1
    match s2 with
    | none => none
    | some s2 =>
      let s3 :=
        if useResolve then
          match rp.resolveReferenceList_[i]? with
          | some resolve => some { s2 with pResolveAttachments := some resolve }
          | none => none
        else some s2
      match s3 with
      | none => none
      | some s3 => some (subPasses.set i s3)
  | _, _ => none

/-- The first loop of `RenderPass::create` (RenderPass.cpp 88-99) with `n` iterations left,
the next one for the index `i`. -/
def RenderPass.updateLoop (rp : RenderPass) (useDepthStencil useResolve : Bool) :
    Nat → Nat → List SubpassDescription → Option (List SubpassDescription)
  | 0, _, subPasses => some subPasses
  | n + 1, i, subPasses =>
    match rp.updateSubPass useDepthStencil useResolve subPasses i with
    | none => none
    | some updated => RenderPass.updateLoop rp useDepthStencil useResolve n (i + 1) updated

/-- Lines 84-99 of `RenderPass::create`: `subPasses_` after the sub-pass information has
been updated, `none` when a vector is indexed out of range. -/
def RenderPass.updateSubpassInfo (rp : RenderPass) : Option (List SubpassDescription) :=
  let useDepthStencil := !rp.depthStencilReferenceList_.isEmpty
  let useResolve := !rp.resolveReferenceList_.isEmpty
  RenderPass.updateLoop rp useDepthStencil useResolve rp.colorReferenceList_.length 0
    rp.subPasses_

/-- A render pass on which nothing has been added or created. -/
def renderPassEmpty : RenderPass := ⟨VK_NULL_HANDLE, [], [], [], []⟩

/-- `VK_SHADER_STAGE_VERTEX_BIT` of the Vulkan headers. -/
def VK_SHADER_STAGE_VERTEX_BIT : Nat := 0x00000001

/-- `VK_SHADER_STAGE_TESSELLATION_CONTROL_BIT` of the Vulkan headers. -/
def VK_SHADER_STAGE_TESSELLATION_CONTROL_BIT : Nat := 0x00000002

/-- `VK_SHADER_STAGE_TESSELLATION_EVALUATION_BIT` of the Vulkan headers. -/
def VK_SHADER_STAGE_TESSELLATION_EVALUATION_BIT : Nat := 0x00000004

/-- `VK_SHADER_STAGE_GEOMETRY_BIT` of the Vulkan headers. -/
def VK_SHADER_STAGE_GEOMETRY_BIT : Nat := 0x00000008

/-- `VK_SHADER_STAGE_FRAGMENT_BIT` of the Vulkan headers. -/
def VK_SHADER_STAGE_FRAGMENT_BIT : Nat := 0x00000010

/-- `VK_SHADER_STAGE_TASK_BIT_EXT` of the Vulkan headers. -/
def VK_SHADER_STAGE_TASK_BIT_EXT : Nat := 0x00000040

/-- `VK_SHADER_STAGE_MESH_BIT_EXT` of the Vulkan headers. -/
def VK_SHADER_STAGE_MESH_BIT_EXT : Nat := 0x00000080

/-- `GraphicsPipeline::getStageIndex` (GraphicsPipeline.hpp 187-219). -/
def getStageIndex (stage : Nat) : Int :=
  if stage = VK_SHADER_STAGE_VERTEX_BIT then 0
  else if stage = VK_SHADER_STAGE_TESSELLATION_CONTROL_BIT then 1
  else if stage = VK_SHADER_STAGE_TESSELLATION_EVALUATION_BIT then 2
  else if stage = VK_SHADER_STAGE_GEOMETRY_BIT then 3
  else if stage = VK_SHADER_STAGE_FRAGMENT_BIT then 4
  else if stage = VK_SHADER_STAGE_TASK_BIT_EXT then 5
  else if stage = VK_SHADER_STAGE_MESH_BIT_EXT then 6
  else -1

/-- The members `specData` (one entry per `char`) and `specSizes` of
`GraphicsPipeline::ShaderModuleInfo` (GraphicsPipeline.hpp 171-178). -/
structure ShaderModuleInfo where
  specData : List Nat
  specSizes : List Nat
deriving DecidableEq, Repr

/-- `VkSpecializationMapEntry` of the Vulkan headers. -/
structure SpecializationMapEntry where
  constantID : Nat
  offset : Nat
  size : Nat
deriving DecidableEq, Repr

/-- `GraphicsPipeline::addSpec<T>(stage, value)` (GraphicsPipeline.hpp 70-88) on the array
`moduleInfo_`, given as the function from an index to the element there; `value` lists the
`sizeof(T)` bytes of the constant. -/
def addSpec (moduleInfo : Nat → ShaderModuleInfo) (stage : Nat) (value : List Nat) :
    Nat → ShaderModuleInfo :=
  let id := getStageIndex stage
  if id ≥ 0 then
    fun j =>
      if j = id.toNat then
        { specData := (moduleInfo j).specData ++ value,
          specSizes := (moduleInfo j).specSizes ++ [value.length] }
      else moduleInfo j
  else moduleInfo

/-- The inner loop of `GraphicsPipeline::createPipeline` (GraphicsPipeline.cpp 237-245): `i`
is the loop index, `offset` the running `size_t` offset, `specMap` the vector filled so far,
and the list holds `specSizes[i]`, `specSizes[i + 1]`, and so on. -/
def specMapLoop (i offset : Nat) (specMap : List SpecializationMapEntry) :
    List Nat → List SpecializationMapEntry
  | [] => specMap
  | size :: rest =>
    specMapLoop (i + 1) ((offset + size) % UINT64_MOD)
      (specMap ++ [⟨i % UINT32_MOD, offset % UINT32_MOD, size⟩]) rest

/-- The specialization map `GraphicsPipeline::createPipeline` builds for one stage
(GraphicsPipeline.cpp 235-245). -/
def createSpecMap (info : ShaderModuleInfo) : List SpecializationMapEntry :=
  specMapLoop 0 0 [] info.specSizes

/-- The array `moduleInfo_` of a pipeline on which no constant has been added. -/
def moduleInfoEmpty : Nat → ShaderModuleInfo := fun _ => ⟨[], []⟩

/-- A sequence of `addSpec` calls, each given by its stage and the bytes of its value, from
left to right. -/
def addSpecs (moduleInfo : Nat → ShaderModuleInfo) : List (Nat × List Nat) →
    Nat → ShaderModuleInfo
  | [] => moduleInfo
  | call :: rest => addSpecs (addSpec moduleInfo call.1 call.2) rest

/-- The values of the calls of a sequence that go to the stage of index `id`. -/
def valuesOfStage (id : Nat) (calls : List (Nat × List Nat)) : List (List Nat) :=
  (calls.filter (fun call => decide (getStageIndex call.1 = (id : Int)))).map (fun call => call.2)

/-- Three `addSpec` calls: a `uint32_t` and a `double` for the fragment stage, with a
`uint16_t` for the vertex stage in between. -/
def specCalls : List (Nat × List Nat) :=
  [(VK_SHADER_STAGE_FRAGMENT_BIT, [1, 0, 0, 0]), (VK_SHADER_STAGE_VERTEX_BIT, [7, 0]),
   (VK_SHADER_STAGE_FRAGMENT_BIT, [0, 0, 0, 0, 0, 0, 240, 63])]

/-- The specialization map entries for the sizes `sizes` in unbounded arithmetic, the first
with constant id `i` and offset `offset`; used only inside proofs. -/
def exactSpecMap (i offset : Nat) : List Nat → List SpecializationMapEntry
  | [] => []
  | size :: rest => ⟨i, offset, size⟩ :: exactSpecMap (i + 1) (offset + size) rest

/-- The members `queueFlags` and `queueCount` of `VkQueueFamilyProperties`. -/
structure QueueFamilyProperties where
  queueFlags : Nat
  queueCount : Nat
deriving DecidableEq, Repr

/-- The members of `VkDeviceQueueCreateInfo` that depend on the queue family;
`pQueuePriorities` is modelled by the vector it points into. -/
structure DeviceQueueCreateInfo where
  queueFamilyIndex : Nat
  queueCount : Nat
  pQueuePriorities : List Nat
deriving DecidableEq, Repr

/-- What the outside world answers to the queue queries of `Device`: `properties` is what
`vkGetPhysicalDeviceQueueFamilyProperties` reports (the same at every call), `surface` is
`instance_->getSurface()`, `surfaceSupport i` is the `VkBool32` that
`vkGetPhysicalDeviceSurfaceSupportKHR` writes for the family `i`, and `deviceQueue i ii` is
the handle `vkGetDeviceQueue` writes for the queue `ii` of the family `i`. -/
structure QueueDriver where
  properties : List QueueFamilyProperties
  surface : Nat
  surfaceSupport : Nat → Nat
  deviceQueue : Nat → Nat → Nat

/-- The usage flags `Device::getAvailableQueuesInfo` derives for one family
(Device.cpp 249-265). -/
def queueUsageFlags (queueFlags presentSupport : Nat) : Nat :=
  let f0 := 0
  let f1 := if queueFlags &&& VK_QUEUE_GRAPHICS_BIT ≠ 0 then f0 ||| VKW_QUEUE_GRAPHICS_BIT else f0
  let f2 := if queueFlags &&& VK_QUEUE_COMPUTE_BIT ≠ 0 then f1 ||| VKW_QUEUE_COMPUTE_BIT else f1
  let f3 := if queueFlags &&& VK_QUEUE_TRANSFER_BIT ≠ 0 then f2 ||| VKW_QUEUE_TRANSFER_BIT else f2
  if presentSupport ≠ 0 then f3 ||| VKW_QUEUE_PRESENT_BIT else f3

/-- The inner loop of `Device::getAvailableQueuesInfo` (Device.cpp 267-274) for the family
`i`, with `n` iterations left, the next one for the queue index `ii`. -/
def addFamilyQueues (flags i : Nat) : Nat → Nat → List Queue → List Queue
  | 0, _, deviceQueues => deviceQueues
  | n + 1, ii, deviceQueues =>
    addFamilyQueues flags i n (ii + 1) (deviceQueues ++ [⟨flags, i, ii, VK_NULL_HANDLE⟩])

/-- The outer loop of `Device::getAvailableQueuesInfo` (Device.cpp 233-284): `i` is the
loop index and the list holds `properties[i]`, `properties[i + 1]`, and so on. -/
def availableQueuesLoop (q : QueueDriver) (queuePriorities : List Nat) (i : Nat)
    (deviceQueues : List Queue) (ret : List DeviceQueueCreateInfo) :
    List QueueFamilyProperties → List Queue × List DeviceQueueCreateInfo
  | [] => (deviceQueues, ret)
  | props :: rest =>
    let presentSupport := if q.surface ≠ VK_NULL_HANDLE then q.surfaceSupport i else 0
    let flags := queueUsageFlags props.queueFlags presentSupport
    availableQueuesLoop q queuePriorities (i + 1)
      (addFamilyQueues flags i (min props.queueCount maxQueueCount) 0 deviceQueues)
      (ret ++ [⟨i, min props.queueCount maxQueueCount, queuePriorities⟩]) rest

/-- `Device::getAvailableQueuesInfo` (Device.cpp 220-287): the device afterwards and the
returned vector. `none` stands for the undefined behaviour of `instance_->getSurface()` on a
null `instance_`, reached when there is at least one family. -/
def Device.getAvailableQueuesInfo (d : Device) (q : QueueDriver) :
    Option (Device × List DeviceQueueCreateInfo) :=
  if d.instance_ = none ∧ q.properties ≠ [] then none
  else
    some ({ d with
            deviceQueues_ :=
              (availableQueuesLoop q d.queuePriorities_ 0 [] [] q.properties).1 },
          (availableQueuesLoop q d.queuePriorities_ 0 [] [] q.properties).2)

/-- The inner loop of `Device::allocateQueues` (Device.cpp 303-307) for the family `i`, with
`n` iterations left, the next one for the queue index `ii`; the result is `deviceQueues_`
and `index` afterwards. `none` stands for the undefined behaviour of `deviceQueues_[index]`
with `index` not below the size. -/
def allocateFamilyQueues (q : QueueDriver) (i : Nat) :
    Nat → Nat → Nat → List Queue → Option (List Queue × Nat)
  | 0, _, index, deviceQueues => some (deviceQueues, index)
  | n + 1, ii, index, deviceQueues =>
    match deviceQueues[index]? with
    | none => none
    | some queue =>
      allocateFamilyQueues q i n (ii + 1) (index + 1)
        (deviceQueues.set index { queue with queue_ := q.deviceQueue i ii })

/-- The outer loop of `Device::allocateQueues` (Device.cpp 299-308): `i` is the loop index
and the list holds `properties[i]`, `properties[i + 1]`, and so on. -/
def allocateQueuesLoop (q : QueueDriver) (i index : Nat) (deviceQueues : List Queue) :
    List QueueFamilyProperties → Option (List Queue)
  | [] => some deviceQueues
  | props :: rest =>
    match allocateFamilyQueues q i (min props.queueCount maxQueueCount) 0 index
        deviceQueues with
    | none => none
    | some r => allocateQueuesLoop q (i + 1) r.2 r.1 rest

/-- `Device::allocateQueues` (Device.cpp 289-309): the device afterwards, `none` when
`deviceQueues_` is indexed out of range. -/
def Device.allocateQueues (d : Device) (q : QueueDriver) : Option Device :=
  match allocateQueuesLoop q 0 0 d.deviceQueues_ q.properties with
  | none => none
  | some deviceQueues => some { d with deviceQueues_ := deviceQueues }

/-- The queues of the family `i` with the indices `ii`, ..., `ii + n - 1`, without handle;
used only inside proofs. -/
def familyBlock (flags i : Nat) : Nat → Nat → List Queue
  | 0, _ => []
  | n + 1, ii => ⟨flags, i, ii, VK_NULL_HANDLE⟩ :: familyBlock flags i n (ii + 1)

/-- The queues of the families `properties[i]`, `properties[i + 1]`, ... in order, without
handle; used only inside proofs. -/
def familyBlocks (q : QueueDriver) (i : Nat) : List QueueFamilyProperties → List Queue
  | [] => []
  | props :: rest =>
    familyBlock
        (queueUsageFlags props.queueFlags
          (if q.surface ≠ VK_NULL_HANDLE then q.surfaceSupport i else 0))
        i (min props.queueCount maxQueueCount) 0
      ++ familyBlocks q (i + 1) rest

/-- A queue with the handle `vkGetDeviceQueue` gives for its family and index; used only
inside proofs. -/
def withHandle (q : QueueDriver) (queue : Queue) : Queue :=
  { queue with queue_ := q.deviceQueue queue.queueFamilyIndex_ queue.queueIndex_ }

/-- A physical device with a graphics+compute+transfer family of 40 queues and a transfer
family of 2 queues, no surface; the handle of queue `ii` of family `i` is
`100 * (i + 1) + ii`. -/
def queueDriverSample : QueueDriver :=
  ⟨[⟨7, 40⟩, ⟨4, 2⟩], VK_NULL_HANDLE, fun _ => 0, fun i ii => 100 * (i + 1) + ii⟩

/-- A device whose `instance_` is set and whose `queuePriorities_` has been resized to
`maxQueueCount` entries, as `Device::init` does (Device.cpp 72-75). -/
def deviceBeforeQueues : Device :=
  ⟨some 1, [], 0, 11, List.replicate 32 1, false, [], VK_NULL_HANDLE, false, false⟩

/-! ## Arithmetic of rounding up -/

theorem roundUp_ge (offset align : Nat) : offset ≤ roundUp offset align := by
  unfold roundUp
  split <;> omega

theorem roundUp_zero (align : Nat) : roundUp 0 align = 0 := by
  simp [roundUp]

theorem roundUp_of_mod_eq_zero (offset align : Nat) (h : offset % align = 0) :
    roundUp offset align = offset := by
  simp [roundUp, h]

theorem roundUp_mod (offset align : Nat) (ha : 0 < align) :
    roundUp offset align % align = 0 := by
  unfold roundUp
  split
  · have hlt : offset % align < align := Nat.mod_lt _ ha
    have hdm : align * (offset / align) + offset % align = offset := Nat.div_add_mod offset align
    have heq : offset + (align - offset % align) = align * (offset / align + 1) := by
      rw [Nat.mul_add, Nat.mul_one]
      omega
    rw [heq]
    exact Nat.mul_mod_right _ _
  · omega

theorem roundUp_lt (offset align : Nat) (ha : 0 < align) :
    roundUp offset align < offset + align := by
  unfold roundUp
  split <;> omega

theorem roundUp_least (offset align m : Nat) (ha : 0 < align) (hm : m % align = 0)
    (hle : offset ≤ m) : roundUp offset align ≤ m := by
  unfold roundUp
  split
  · rename_i hpos
    have hlt : offset % align < align := Nat.mod_lt _ ha
    have hdm : align * (offset / align) + offset % align = offset := Nat.div_add_mod offset align
    have hmk : align * (m / align) + m % align = m := Nat.div_add_mod m align
    have hq : offset / align < m / align := by
      apply Nat.lt_of_mul_lt_mul_left (a := align)
      omega
    have hstep : align * (offset / align + 1) ≤ align * (m / align) :=
      Nat.mul_le_mul_left _ hq
    rw [Nat.mul_add, Nat.mul_one] at hstep
    omega
  · exact hle

/-! ## The packing loop without overflow -/

theorem le_exactEnd (objs : List MemObject) (offset : Nat) : offset ≤ exactEnd offset objs := by
  induction objs generalizing offset with
  | nil => simp [exactEnd]
  | cons obj rest ih =>
    have h1 := roundUp_ge offset obj.memAlign_
    have h2 := ih (roundUp offset obj.memAlign_ + obj.memSize_)
    simp only [exactEnd]
    omega

theorem packLoop_eq_exact (rest : List MemObject) (offset : Nat) (acc : List Nat)
    (halign : ∀ o ∈ rest, 0 < o.memAlign_) (hfit : exactEnd offset rest < UINT64_MOD) :
    packLoop offset acc rest = some (acc ++ exactOffsets offset rest, exactEnd offset rest) := by
  induction rest generalizing offset acc with
  | nil => simp [packLoop, exactOffsets, exactEnd]
  | cons obj rest ih =>
    have ha : 0 < obj.memAlign_ := halign obj (by simp)
    have hrest : ∀ o ∈ rest, 0 < o.memAlign_ := fun o ho => halign o (by simp [ho])
    simp only [exactEnd] at hfit
    have hend := le_exactEnd rest (roundUp offset obj.memAlign_ + obj.memSize_)
    have h1 : (if offset % obj.memAlign_ > 0
        then (offset + (obj.memAlign_ - offset % obj.memAlign_)) % UINT64_MOD else offset)
        = roundUp offset obj.memAlign_ := by
      unfold roundUp
      split
      · rename_i hpos
        have hr : roundUp offset obj.memAlign_
            = offset + (obj.memAlign_ - offset % obj.memAlign_) := by
          simp [roundUp, hpos]
        apply Nat.mod_eq_of_lt
        omega
      · rfl
    have h2 : (roundUp offset obj.memAlign_ + obj.memSize_) % UINT64_MOD
        = roundUp offset obj.memAlign_ + obj.memSize_ := by
      apply Nat.mod_eq_of_lt
      omega
    have hne : obj.memAlign_ ≠ 0 := by omega
    simp only [packLoop, hne, if_false, h1, h2]
    rw [ih _ _ hrest hfit]
    simp [exactOffsets, exactEnd]

theorem computeLayout_eq_exact (objs : List MemObject) (hne : objs ≠ [])
    (halign : ∀ o ∈ objs, 0 < o.memAlign_) (hfit : exactEnd 0 objs < UINT64_MOD) :
    computeLayout objs
      = some (exactOffsets 0 objs, (exactEnd 0 objs + (objs.getLast hne).memSize_) % UINT64_MOD) := by
  cases objs with
  | nil => exact absurd rfl hne
  | cons first rest =>
    have hrest : ∀ o ∈ rest, 0 < o.memAlign_ := fun o ho => halign o (by simp [ho])
    simp only [exactEnd, roundUp_zero] at hfit
    have hend := le_exactEnd rest (0 + first.memSize_)
    have h0 : (0 + first.memSize_) % UINT64_MOD = 0 + first.memSize_ := by
      apply Nat.mod_eq_of_lt
      omega
    simp only [computeLayout, h0]
    rw [packLoop_eq_exact rest _ _ hrest hfit]
    simp [exactOffsets, exactEnd, roundUp_zero]

/-! ## Indexed facts about the exact offsets -/

theorem exactOffsets_length (objs : List MemObject) (offset : Nat) :
    (exactOffsets offset objs).length = objs.length := by
  induction objs generalizing offset with
  | nil => simp [exactOffsets]
  | cons obj rest ih => simp [exactOffsets, ih]

theorem exactOffsets_ge (objs : List MemObject) (offset j : Nat)
    (hj : j < (exactOffsets offset objs).length) : offset ≤ (exactOffsets offset objs)[j] := by
  induction objs generalizing offset j with
  | nil => simp [exactOffsets] at hj
  | cons obj rest ih =>
    have h1 := roundUp_ge offset obj.memAlign_
    cases j with
    | zero => simpa [exactOffsets] using h1
    | succ j =>
      simp only [exactOffsets, List.length_cons, Nat.add_lt_add_iff_right] at hj
      have h2 := ih (roundUp offset obj.memAlign_ + obj.memSize_) j hj
      simp only [exactOffsets, List.getElem_cons_succ]
      omega

theorem exactOffsets_separated (objs : List MemObject) (offset i j : Nat) (hij : i < j)
    (hi : i < objs.length) (hi2 : i < (exactOffsets offset objs).length)
    (hj : j < (exactOffsets offset objs).length) :
    (exactOffsets offset objs)[i] + objs[i].memSize_ ≤ (exactOffsets offset objs)[j] := by
  induction objs generalizing offset i j with
  | nil => simp at hi
  | cons obj rest ih =>
    cases j with
    | zero => omega
    | succ j =>
      simp only [exactOffsets, List.length_cons, Nat.add_lt_add_iff_right] at hj
      cases i with
      | zero =>
        have h2 := exactOffsets_ge rest (roundUp offset obj.memAlign_ + obj.memSize_) j hj
        simpa [exactOffsets] using h2
      | succ i =>
        simp only [List.length_cons, Nat.add_lt_add_iff_right] at hi
        have hi3 : i < (exactOffsets (roundUp offset obj.memAlign_ + obj.memSize_) rest).length := by
          rw [exactOffsets_length]; exact hi
        have h2 := ih (roundUp offset obj.memAlign_ + obj.memSize_) i j (by omega) hi hi3 hj
        simpa [exactOffsets] using h2

theorem exactOffsets_end (objs : List MemObject) (offset i : Nat)
    (hi : i < objs.length) (hi2 : i < (exactOffsets offset objs).length) :
    (exactOffsets offset objs)[i] + objs[i].memSize_ ≤ exactEnd offset objs := by
  induction objs generalizing offset i with
  | nil => simp at hi
  | cons obj rest ih =>
    cases i with
    | zero =>
      have h2 := le_exactEnd rest (roundUp offset obj.memAlign_ + obj.memSize_)
      simpa [exactOffsets, exactEnd] using h2
    | succ i =>
      simp only [List.length_cons, Nat.add_lt_add_iff_right] at hi
      have hi3 : i < (exactOffsets (roundUp offset obj.memAlign_ + obj.memSize_) rest).length := by
        rw [exactOffsets_length]; exact hi
      have h2 := ih (roundUp offset obj.memAlign_ + obj.memSize_) i hi hi3
      simpa [exactOffsets, exactEnd] using h2

theorem exactOffsets_aligned (objs : List MemObject) (offset i : Nat)
    (halign : ∀ o ∈ objs, 0 < o.memAlign_)
    (hi : i < objs.length) (hi2 : i < (exactOffsets offset objs).length) :
    (exactOffsets offset objs)[i] % objs[i].memAlign_ = 0 := by
  induction objs generalizing offset i with
  | nil => simp at hi
  | cons obj rest ih =>
    have ha : 0 < obj.memAlign_ := halign obj (by simp)
    have hrest : ∀ o ∈ rest, 0 < o.memAlign_ := fun o ho => halign o (by simp [ho])
    cases i with
    | zero => simpa [exactOffsets] using roundUp_mod offset obj.memAlign_ ha
    | succ i =>
      simp only [List.length_cons, Nat.add_lt_add_iff_right] at hi
      have hi3 : i < (exactOffsets (roundUp offset obj.memAlign_ + obj.memSize_) rest).length := by
        rw [exactOffsets_length]; exact hi
      have h2 := ih (roundUp offset obj.memAlign_ + obj.memSize_) i hrest hi hi3
      simpa [exactOffsets] using h2

theorem exactOffsets_succ (objs : List MemObject) (offset i : Nat)
    (hi : i + 1 < objs.length) (hi2 : i + 1 < (exactOffsets offset objs).length) :
    (exactOffsets offset objs)[i + 1]
      = roundUp ((exactOffsets offset objs)[i] + objs[i].memSize_) objs[i + 1].memAlign_ := by
  induction objs generalizing offset i with
  | nil => simp at hi
  | cons obj rest ih =>
    simp only [List.length_cons, Nat.add_lt_add_iff_right] at hi
    have hi3 : i < (exactOffsets (roundUp offset obj.memAlign_ + obj.memSize_) rest).length := by
      rw [exactOffsets_length]; exact hi
    cases i with
    | zero =>
      cases rest with
      | nil => simp at hi
      | cons obj2 rest2 => simp [exactOffsets]
    | succ i =>
      have hi4 : i + 1 < (exactOffsets (roundUp offset obj.memAlign_ + obj.memSize_) rest).length := hi3
      have h2 := ih (roundUp offset obj.memAlign_ + obj.memSize_) i hi hi4
      simpa [exactOffsets] using h2

theorem exactEnd_eq_getLast (objs : List MemObject) (offset : Nat) (hne : objs ≠ [])
    (hoff : exactOffsets offset objs ≠ []) :
    exactEnd offset objs = (exactOffsets offset objs).getLast hoff + (objs.getLast hne).memSize_ := by
  induction objs generalizing offset with
  | nil => exact absurd rfl hne
  | cons obj rest ih =>
    cases rest with
    | nil => simp [exactOffsets, exactEnd]
    | cons obj2 rest2 =>
      have h2 := ih (roundUp offset obj.memAlign_ + obj.memSize_) (by simp)
        (by simp [exactOffsets])
      simp only [exactEnd] at h2 ⊢
      rw [h2]
      simp [exactOffsets]

/-- The size requested by `Memory::allocate` in general: for a non-empty list with all
alignments positive and no `uint64` overflow, `requiredSize` is the last offset plus the
last size counted twice. -/
theorem computeLayout_requiredSize (objs : List MemObject) (hne : objs ≠ [])
    (halign : ∀ o ∈ objs, 0 < o.memAlign_)
    (hfit : exactEnd 0 objs + (objs.getLast hne).memSize_ < UINT64_MOD) :
    ∃ offsets requiredSize, computeLayout objs = some (offsets, requiredSize) ∧
      ∀ hoff : offsets ≠ [],
        requiredSize
          = offsets.getLast hoff + (objs.getLast hne).memSize_ + (objs.getLast hne).memSize_ := by
  have hfit1 : exactEnd 0 objs < UINT64_MOD := by omega
  refine ⟨_, _, computeLayout_eq_exact objs hne halign hfit1, ?_⟩
  intro hoff
  rw [Nat.mod_eq_of_lt hfit, exactEnd_eq_getLast objs 0 hne hoff]

/-! ## Memory::allocate — layout claims -/

/-- C1 (evaluation at the failing input): with the single registered resource
`{size=16, align=16}`, whose offset is `0`, `Memory::allocate` requests an allocation of
`32` bytes, not `offset + size = 16`: `offset` already holds the end of the last resource
when the last size is added once more at Memory.cpp line 106. -/
theorem allocate_single_resource_requests_twice_its_size :
    allocate driverOk (arenaOf [⟨16, 16, 0, 0⟩])
      = some (true, ⟨some 0, 0, 1, 7, [⟨16, 16, 0, 0⟩], true⟩,
          [Call.getMemoryProperties, Call.allocateMemory 32 0, Call.bindResource 0 7 0]) := by
  decide

/-- C2: for a non-empty list of registered resources with all alignments positive and no
`uint64` overflow in the packing, `Memory::allocate` computes one offset per resource and the
byte ranges `[offset_i, offset_i + size_i)` of two different resources share no byte. -/
theorem allocate_ranges_disjoint (objs : List MemObject) (hne : objs ≠ [])
    (halign : ∀ o ∈ objs, 0 < o.memAlign_) (hfit : exactEnd 0 objs < UINT64_MOD) :
    ∃ offsets requiredSize, computeLayout objs = some (offsets, requiredSize) ∧
      offsets.length = objs.length ∧
      ∀ (i j : Nat) (hi : i < objs.length) (hj : j < objs.length)
        (hi2 : i < offsets.length) (hj2 : j < offsets.length), i ≠ j →
        ∀ byte : Nat,
          ¬ ((offsets[i] ≤ byte ∧ byte < offsets[i] + objs[i].memSize_) ∧
             (offsets[j] ≤ byte ∧ byte < offsets[j] + objs[j].memSize_)) := by
  refine ⟨_, _, computeLayout_eq_exact objs hne halign hfit, exactOffsets_length objs 0, ?_⟩
  intro i j hi hj hi2 hj2 hij byte hb
  rcases Nat.lt_or_gt_of_ne hij with h | h
  · have := exactOffsets_separated objs 0 i j h hi hi2 hj2
    omega
  · have := exactOffsets_separated objs 0 j i h hj hj2 hi2
    omega

/-- Witness of C2 on the resources `{256, 256}`, `{37, 64}`. -/
theorem allocate_ranges_disjoint_witness :
    ∃ offsets requiredSize, computeLayout sceneA = some (offsets, requiredSize) ∧
      offsets.length = sceneA.length ∧
      ∀ (i j : Nat) (hi : i < sceneA.length) (hj : j < sceneA.length)
        (hi2 : i < offsets.length) (hj2 : j < offsets.length), i ≠ j →
        ∀ byte : Nat,
          ¬ ((offsets[i] ≤ byte ∧ byte < offsets[i] + sceneA[i].memSize_) ∧
             (offsets[j] ≤ byte ∧ byte < offsets[j] + sceneA[j].memSize_)) :=
  allocate_ranges_disjoint sceneA (by decide) (by decide) (by decide)

/-- C3: for a non-empty list of registered resources with all alignments positive and no
`uint64` overflow in the packing, every offset `Memory::allocate` computes is a multiple of
its own resource's alignment, the first resource at offset `0` included. -/
theorem allocate_offsets_aligned (objs : List MemObject) (hne : objs ≠ [])
    (halign : ∀ o ∈ objs, 0 < o.memAlign_) (hfit : exactEnd 0 objs < UINT64_MOD) :
    ∃ offsets requiredSize, computeLayout objs = some (offsets, requiredSize) ∧
      offsets.length = objs.length ∧ offsets[0]? = some 0 ∧
      ∀ (i : Nat) (hi : i < objs.length) (hi2 : i < offsets.length),
        offsets[i] % objs[i].memAlign_ = 0 := by
  refine ⟨_, _, computeLayout_eq_exact objs hne halign hfit, exactOffsets_length objs 0, ?_, ?_⟩
  · cases objs with
    | nil => exact absurd rfl hne
    | cons first rest => simp [exactOffsets, roundUp_zero]
  · intro i hi hi2
    exact exactOffsets_aligned objs 0 i halign hi hi2

/-- Witness of C3 on the resources `{256, 256}`, `{37, 64}`. -/
theorem allocate_offsets_aligned_witness :
    ∃ offsets requiredSize, computeLayout sceneA = some (offsets, requiredSize) ∧
      offsets.length = sceneA.length ∧ offsets[0]? = some 0 ∧
      ∀ (i : Nat) (hi : i < sceneA.length) (hi2 : i < offsets.length),
        offsets[i] % sceneA[i].memAlign_ = 0 :=
  allocate_offsets_aligned sceneA (by decide) (by decide) (by decide)

/-- C4: for a non-empty list of registered resources with all alignments positive and no
`uint64` overflow (the addition that forms `requiredSize` included), every resource's range
ends at or before the allocation size `Memory::allocate` requests. -/
theorem allocate_ranges_within_allocation (objs : List MemObject) (hne : objs ≠ [])
    (halign : ∀ o ∈ objs, 0 < o.memAlign_)
    (hfit : exactEnd 0 objs + (objs.getLast hne).memSize_ < UINT64_MOD) :
    ∃ offsets requiredSize, computeLayout objs = some (offsets, requiredSize) ∧
      offsets.length = objs.length ∧
      ∀ (i : Nat) (hi : i < objs.length) (hi2 : i < offsets.length),
        offsets[i] + objs[i].memSize_ ≤ requiredSize := by
  have hfit1 : exactEnd 0 objs < UINT64_MOD := by omega
  refine ⟨_, _, computeLayout_eq_exact objs hne halign hfit1, exactOffsets_length objs 0, ?_⟩
  intro i hi hi2
  have h := exactOffsets_end objs 0 i hi hi2
  rw [Nat.mod_eq_of_lt hfit]
  omega

/-- Witness of C4 on the resources `{256, 256}`, `{37, 64}`. -/
theorem allocate_ranges_within_allocation_witness :
    ∃ offsets requiredSize, computeLayout sceneA = some (offsets, requiredSize) ∧
      offsets.length = sceneA.length ∧
      ∀ (i : Nat) (hi : i < sceneA.length) (hi2 : i < offsets.length),
        offsets[i] + sceneA[i].memSize_ ≤ requiredSize :=
  allocate_ranges_within_allocation sceneA (by decide) (by decide) (by decide)

/-- C5 (counterexample): the offsets are not strictly increasing for every sequence. Two
resources of size `0` both get offset `0`; and when the running offset wraps around
`2 ^ 64` a later resource gets a smaller offset than an earlier one. -/
theorem allocate_offsets_not_always_strict :
    (computeLayout [⟨0, 1, 0, 0⟩, ⟨0, 1, 0, 0⟩] = some ([0, 0], 0) ∧
      ¬ List.Pairwise (fun a b : Nat => a < b) [0, 0]) ∧
    (computeLayout [⟨2 ^ 64 - 1, 1, 0, 0⟩, ⟨2, 1, 0, 0⟩, ⟨1, 1, 0, 0⟩]
        = some ([0, 2 ^ 64 - 1, 1], 3) ∧
      ¬ List.Pairwise (fun a b : Nat => a < b) [0, 2 ^ 64 - 1, 1]) := by
  decide

/-- C5 (amended): for a non-empty list of registered resources with all alignments positive
and no `uint64` overflow in the packing, the offset of a resource of non-zero size is
strictly below the offset of every resource registered after it. -/
theorem allocate_offsets_strict_after_nonempty (objs : List MemObject) (hne : objs ≠ [])
    (halign : ∀ o ∈ objs, 0 < o.memAlign_) (hfit : exactEnd 0 objs < UINT64_MOD) :
    ∃ offsets requiredSize, computeLayout objs = some (offsets, requiredSize) ∧
      offsets.length = objs.length ∧
      ∀ (i j : Nat) (hij : i < j) (hj : j < objs.length) (hj2 : j < offsets.length),
        0 < objs[i].memSize_ → offsets[i] < offsets[j] := by
  refine ⟨_, _, computeLayout_eq_exact objs hne halign hfit, exactOffsets_length objs 0, ?_⟩
  intro i j hij hj hj2 hpos
  have := exactOffsets_separated objs 0 i j hij (by omega) (by omega) hj2
  omega

/-- Witness of the amended C5 on the resources `{10, 16}`, `{10, 4}`. -/
theorem allocate_offsets_strict_after_nonempty_witness :
    ∃ offsets requiredSize, computeLayout sceneB = some (offsets, requiredSize) ∧
      offsets.length = sceneB.length ∧
      ∀ (i j : Nat) (hij : i < j) (hj : j < sceneB.length) (hj2 : j < offsets.length),
        0 < sceneB[i].memSize_ → offsets[i] < offsets[j] :=
  allocate_offsets_strict_after_nonempty sceneB (by decide) (by decide) (by decide)

/-- C6: for a non-empty list of registered resources with all alignments positive and no
`uint64` overflow in the packing, the offsets `Memory::allocate` computes are non-decreasing
in registration order. -/
theorem allocate_offsets_nondecreasing (objs : List MemObject) (hne : objs ≠ [])
    (halign : ∀ o ∈ objs, 0 < o.memAlign_) (hfit : exactEnd 0 objs < UINT64_MOD) :
    ∃ offsets requiredSize, computeLayout objs = some (offsets, requiredSize) ∧
      offsets.length = objs.length ∧
      ∀ (i j : Nat) (hij : i < j) (hj : j < offsets.length), offsets[i] ≤ offsets[j] := by
  refine ⟨_, _, computeLayout_eq_exact objs hne halign hfit, exactOffsets_length objs 0, ?_⟩
  intro i j hij hj
  have hlen := exactOffsets_length objs 0
  have := exactOffsets_separated objs 0 i j hij (by omega) (by omega) hj
  omega

/-- Witness of C6 on the resources `{256, 256}`, `{37, 64}`. -/
theorem allocate_offsets_nondecreasing_witness :
    ∃ offsets requiredSize, computeLayout sceneA = some (offsets, requiredSize) ∧
      offsets.length = sceneA.length ∧
      ∀ (i j : Nat) (hij : i < j) (hj : j < offsets.length), offsets[i] ≤ offsets[j] :=
  allocate_offsets_nondecreasing sceneA (by decide) (by decide) (by decide)

/-- C7: `Memory::allocate` gives the first registered resource offset `0`; every later
resource `i + 1` (alignments positive, no `uint64` overflow in the packing) gets the least
multiple of its alignment that is at or after the end `offset_i + size_i` of the resource
before it, so the padding is below the alignment and is zero when that end is aligned. -/
theorem allocate_offsets_least_aligned (objs : List MemObject) (hne : objs ≠ [])
    (halign : ∀ o ∈ objs, 0 < o.memAlign_) (hfit : exactEnd 0 objs < UINT64_MOD) :
    ∃ offsets requiredSize, computeLayout objs = some (offsets, requiredSize) ∧
      offsets.length = objs.length ∧ offsets[0]? = some 0 ∧
      ∀ (i : Nat) (hi : i + 1 < objs.length) (hi2 : i + 1 < offsets.length),
        offsets[i + 1] % objs[i + 1].memAlign_ = 0 ∧
        offsets[i] + objs[i].memSize_ ≤ offsets[i + 1] ∧
        (∀ m : Nat, m % objs[i + 1].memAlign_ = 0 → offsets[i] + objs[i].memSize_ ≤ m →
          offsets[i + 1] ≤ m) ∧
        offsets[i + 1] - (offsets[i] + objs[i].memSize_) < objs[i + 1].memAlign_ ∧
        ((offsets[i] + objs[i].memSize_) % objs[i + 1].memAlign_ = 0 →
          offsets[i + 1] = offsets[i] + objs[i].memSize_) := by
  refine ⟨_, _, computeLayout_eq_exact objs hne halign hfit, exactOffsets_length objs 0, ?_, ?_⟩
  · cases objs with
    | nil => exact absurd rfl hne
    | cons first rest => simp [exactOffsets, roundUp_zero]
  · intro i hi hi2
    have ha : 0 < objs[i + 1].memAlign_ := halign _ (List.getElem_mem _)
    have hstep := exactOffsets_succ objs 0 i hi hi2
    have hge := roundUp_ge ((exactOffsets 0 objs)[i] + objs[i].memSize_) objs[i + 1].memAlign_
    have hlt := roundUp_lt ((exactOffsets 0 objs)[i] + objs[i].memSize_) objs[i + 1].memAlign_ ha
    refine ⟨?_, ?_, ?_, ?_, ?_⟩
    · rw [hstep]; exact roundUp_mod _ _ ha
    · rw [hstep]; exact hge
    · intro m hm hle
      rw [hstep]; exact roundUp_least _ _ m ha hm hle
    · rw [hstep]; omega
    · intro hz
      rw [hstep]; exact roundUp_of_mod_eq_zero _ _ hz

/-- Witness of C7 on the resources `{10, 16}`, `{10, 4}`. -/
theorem allocate_offsets_least_aligned_witness :
    ∃ offsets requiredSize, computeLayout sceneB = some (offsets, requiredSize) ∧
      offsets.length = sceneB.length ∧ offsets[0]? = some 0 ∧
      ∀ (i : Nat) (hi : i + 1 < sceneB.length) (hi2 : i + 1 < offsets.length),
        offsets[i + 1] % sceneB[i + 1].memAlign_ = 0 ∧
        offsets[i] + sceneB[i].memSize_ ≤ offsets[i + 1] ∧
        (∀ m : Nat, m % sceneB[i + 1].memAlign_ = 0 → offsets[i] + sceneB[i].memSize_ ≤ m →
          offsets[i + 1] ≤ m) ∧
        offsets[i + 1] - (offsets[i] + sceneB[i].memSize_) < sceneB[i + 1].memAlign_ ∧
        ((offsets[i] + sceneB[i].memSize_) % sceneB[i + 1].memAlign_ = 0 →
          offsets[i + 1] = offsets[i] + sceneB[i].memSize_) :=
  allocate_offsets_least_aligned sceneB (by decide) (by decide) (by decide)

/-- C8 (evaluation at the failing input): with `{size=256, align=256}` then
`{size=37, align=64}` registered, `Memory::allocate` binds the resources at offsets `0` and
`256` but requests `330 = 256 + 37 + 37` bytes, not `293`. -/
theorem allocate_sceneA_requests_330 :
    computeLayout sceneA = some ([0, 256], 330) ∧
    allocate driverOk (arenaOf sceneA)
      = some (true, ⟨some 0, 0, 1, 7, [⟨256, 256, 0, 0⟩, ⟨37, 64, 0, 256⟩], true⟩,
          [Call.getMemoryProperties, Call.allocateMemory 330 0,
            Call.bindResource 0 7 0, Call.bindResource 1 7 256]) := by
  decide

/-- C9: with `{size=10, align=16}` then `{size=10, align=4}` registered, `Memory::allocate`
computes the offsets `0` and `12`. -/
theorem allocate_sceneB_offsets :
    (computeLayout sceneB).map Prod.fst = some [0, 12] := by
  decide

/-! ## Memory::allocate — the empty arena -/

/-- C10: on an arena with no registered resource `Memory::allocate` returns `false` without
calling anything (no memory-type query, no allocation, no bind) and leaves the arena, its
allocation handle included, as it was. -/
theorem allocate_empty_fails (drv : Driver) (m : Memory) (hempty : m.memObjects_ = []) :
    allocate drv m = some (false, m, []) := by
  simp [allocate, hempty]

/-- Witness of C10 on an initialised arena without resources. -/
theorem allocate_empty_fails_witness :
    (arenaOf []).memObjects_ = [] ∧ allocate driverOk (arenaOf []) = some (false, arenaOf [], []) :=
  ⟨rfl, allocate_empty_fails driverOk (arenaOf []) rfl⟩

/-! ## Memory::findMemoryType -/

theorem findFrom_eq_none_iff (p : Nat → Bool) (k : Nat) (l : List Nat) :
    findFrom p k l = none ↔ ∀ x ∈ l, p x = false := by
  induction l generalizing k with
  | nil => simp [findFrom]
  | cons flags rest ih =>
    by_cases hp : p flags = true
    · simp [findFrom, hp]
    · simp [findFrom, hp, ih]

theorem findFrom_some_spec (p : Nat → Bool) (k r : Nat) (l : List Nat)
    (h : findFrom p k l = some r) :
    k ≤ r ∧ r - k < l.length ∧ (∃ x, l[r - k]? = some x ∧ p x = true) ∧
      ∀ j, j < r - k → ∀ y, l[j]? = some y → p y = false := by
  induction l generalizing k with
  | nil => simp [findFrom] at h
  | cons flags rest ih =>
    by_cases hp : p flags = true
    · simp only [findFrom, hp, if_true, Option.some.injEq] at h
      subst h
      simp [hp]
    · simp only [findFrom, hp] at h
      obtain ⟨h1, h2, ⟨x, hx, hpx⟩, h4⟩ := ih (k + 1) h
      have hrk : r - k = (r - (k + 1)) + 1 := by omega
      refine ⟨by omega, by simp only [List.length_cons]; omega, ⟨x, ?_, hpx⟩, ?_⟩
      · rw [hrk, List.getElem?_cons_succ]; exact hx
      · intro j hj y hy
        cases j with
        | zero =>
          simp only [List.getElem?_cons_zero, Option.some.injEq] at hy
          subst hy
          simpa using hp
        | succ j =>
          rw [List.getElem?_cons_succ] at hy
          exact h4 j (by omega) y hy

theorem findMemoryType_exact_spec (types : List Nat) (mask : Nat) (hex : mask ∈ types) :
    ∃ i, findMemoryType types mask = i ∧ i < types.length ∧ types[i]? = some mask ∧
      ∀ j, j < i → types[j]? ≠ some mask := by
  cases hf : findFrom (fun flags => flags == mask) 0 types with
  | none =>
    have := (findFrom_eq_none_iff _ 0 types).1 hf mask hex
    simp at this
  | some r =>
    obtain ⟨_, h2, ⟨x, hx, hpx⟩, h4⟩ := findFrom_some_spec _ 0 r types hf
    refine ⟨r, by simp [findMemoryType, hf], by simpa using h2, ?_, ?_⟩
    · have hxm : x = mask := by simpa using hpx
      simpa [hxm] using hx
    · intro j hj hjm
      have := h4 j (by simpa using hj) mask hjm
      simp at this

theorem findMemoryType_superset_spec (types : List Nat) (mask : Nat)
    (hno : ∀ f ∈ types, f ≠ mask) (hsup : ∃ f ∈ types, f &&& mask = mask) :
    ∃ i, findMemoryType types mask = i ∧ i < types.length ∧
      (∃ f, types[i]? = some f ∧ f &&& mask = mask) ∧
      ∀ j, j < i → ∀ g, types[j]? = some g → g &&& mask ≠ mask := by
  have hf1 : findFrom (fun flags => flags == mask) 0 types = none := by
    rw [findFrom_eq_none_iff]
    intro x hx
    simpa using hno x hx
  cases hf : findFrom (fun flags => (flags &&& mask) == mask) 0 types with
  | none =>
    obtain ⟨f, hfm, hfs⟩ := hsup
    have := (findFrom_eq_none_iff _ 0 types).1 hf f hfm
    simp [hfs] at this
  | some r =>
    obtain ⟨_, h2, ⟨x, hx, hpx⟩, h4⟩ := findFrom_some_spec _ 0 r types hf
    refine ⟨r, by simp [findMemoryType, hf1, hf], by simpa using h2,
      ⟨x, by simpa using hx, by simpa using hpx⟩, ?_⟩
    intro j hj g hg
    have := h4 j (by simpa using hj) g hg
    simpa using this

theorem findMemoryType_eq_not_found_iff (types : List Nat) (mask : Nat)
    (hcount : types.length ≤ NOT_FOUND) :
    findMemoryType types mask = NOT_FOUND ↔ ∀ f ∈ types, f &&& mask ≠ mask := by
  constructor
  · intro h f hf hfm
    by_cases hex : mask ∈ types
    · obtain ⟨i, hi, hlt, _, _⟩ := findMemoryType_exact_spec types mask hex
      omega
    · have hno : ∀ g ∈ types, g ≠ mask := fun g hg hgm => hex (hgm ▸ hg)
      obtain ⟨i, hi, hlt, _, _⟩ := findMemoryType_superset_spec types mask hno ⟨f, hf, hfm⟩
      omega
  · intro h
    have hf1 : findFrom (fun flags => flags == mask) 0 types = none := by
      rw [findFrom_eq_none_iff]
      intro x hx
      have := h x hx
      simp only [beq_eq_false_iff_ne, ne_eq]
      intro hxm
      apply this
      rw [hxm]
      exact Nat.and_self mask
    have hf2 : findFrom (fun flags => (flags &&& mask) == mask) 0 types = none := by
      rw [findFrom_eq_none_iff]
      intro x hx
      simpa using h x hx
    simp [findMemoryType, hf1, hf2]

/-! ## Memory::allocate — the steps after the layout -/

theorem packLoop_some (rest : List MemObject) (offset : Nat) (acc : List Nat)
    (halign : ∀ o ∈ rest, 0 < o.memAlign_) :
    ∃ offs e, packLoop offset acc rest = some (offs, e) ∧
      offs.length = acc.length + rest.length := by
  induction rest generalizing offset acc with
  | nil => exact ⟨acc, offset, by simp [packLoop], by simp⟩
  | cons obj rest ih =>
    have ha : obj.memAlign_ ≠ 0 := by
      have := halign obj (by simp)
      omega
    have hrest : ∀ o ∈ rest, 0 < o.memAlign_ := fun o ho => halign o (by simp [ho])
    simp only [packLoop, ha, if_false]
    obtain ⟨offs, e, h1, h2⟩ := ih _ (acc ++ [_]) hrest
    refine ⟨offs, e, h1, ?_⟩
    rw [h2]
    simp only [List.length_append, List.length_cons, List.length_nil]
    omega

theorem computeLayout_some (objs : List MemObject) (hne : objs ≠ [])
    (halign : ∀ o ∈ objs, 0 < o.memAlign_) :
    ∃ offsets requiredSize, computeLayout objs = some (offsets, requiredSize) ∧
      offsets.length = objs.length := by
  cases objs with
  | nil => exact absurd rfl hne
  | cons first rest =>
    have hrest : ∀ o ∈ rest, 0 < o.memAlign_ := fun o ho => halign o (by simp [ho])
    obtain ⟨offs, e, h1, h2⟩ := packLoop_some rest ((0 + first.memSize_) % UINT64_MOD) [0] hrest
    refine ⟨offs, _, by rw [computeLayout, h1], ?_⟩
    rw [h2]
    simp only [List.length_cons, List.length_nil]
    omega

theorem computeLayout_length (objs : List MemObject) (offsets : List Nat) (requiredSize : Nat)
    (hlay : computeLayout objs = some (offsets, requiredSize)) :
    objs ≠ [] ∧ offsets.length = objs.length := by
  cases objs with
  | nil => simp [computeLayout] at hlay
  | cons first rest =>
    refine ⟨by simp, ?_⟩
    have hlen : ∀ (l : List MemObject) (off : Nat) (acc offs2 : List Nat) (e2 : Nat),
        packLoop off acc l = some (offs2, e2) → offs2.length = acc.length + l.length := by
      intro l
      induction l with
      | nil =>
        intro off acc offs2 e2 h
        simp only [packLoop, Option.some.injEq, Prod.mk.injEq] at h
        simp [← h.1]
      | cons o l ih =>
        intro off acc offs2 e2 h
        by_cases ha : o.memAlign_ = 0
        · simp [packLoop, ha] at h
        · simp only [packLoop, ha, if_false] at h
          have := ih _ _ _ _ h
          simp only [List.length_append, List.length_cons, List.length_nil] at this ⊢
          omega
    simp only [computeLayout] at hlay
    split at hlay
    · simp at hlay
    · rename_i offs e hp
      simp only [Option.some.injEq, Prod.mk.injEq] at hlay
      have := hlen rest _ _ _ _ hp
      rw [← hlay.1, this]
      simp only [List.length_cons, List.length_nil]
      omega

theorem allocate_of_layout (drv : Driver) (m : Memory) (offsets : List Nat)
    (requiredSize device : Nat)
    (hlay : computeLayout m.memObjects_ = some (offsets, requiredSize))
    (hdev : m.device_ = some device) :
    allocate drv m =
      if findMemoryType drv.memoryTypes m.propertyFlags_ = NOT_FOUND then
        some (false, m, [Call.getMemoryProperties])
      else
        match drv.allocateMemory requiredSize
            (findMemoryType drv.memoryTypes m.propertyFlags_) with
        | none =>
          some (false,
            { m with
              memory_ := (drv.failedAllocationWrites requiredSize
                (findMemoryType drv.memoryTypes m.propertyFlags_)).getD m.memory_ },
            [Call.getMemoryProperties,
              Call.allocateMemory requiredSize
                (findMemoryType drv.memoryTypes m.propertyFlags_)])
        | some handle =>
          some ((bindLoop drv handle 0 m.memObjects_ offsets).1,
            { m with
              memory_ := handle,
              memObjects_ := (bindLoop drv handle 0 m.memObjects_ offsets).2.1 },
            [Call.getMemoryProperties,
              Call.allocateMemory requiredSize
                (findMemoryType drv.memoryTypes m.propertyFlags_)]
              ++ (bindLoop drv handle 0 m.memObjects_ offsets).2.2) := by
  have hne := (computeLayout_length _ _ _ hlay).1
  have hlen : m.memObjects_.length ≠ 0 := by
    intro h
    exact hne (List.length_eq_zero.1 h)
  simp only [allocate, hlen, if_false, hlay, hdev]

/-! ## The bind loop -/

theorem bindCalls_length (mem i : Nat) (offs : List Nat) :
    (bindCalls mem i offs).length = offs.length := by
  induction offs generalizing i with
  | nil => simp [bindCalls]
  | cons off offs ih => simp [bindCalls, ih]

theorem bindCalls_getElem (mem i k : Nat) (offs : List Nat)
    (hk : k < (bindCalls mem i offs).length) (hk2 : k < offs.length) :
    (bindCalls mem i offs)[k] = Call.bindResource (i + k) mem offs[k] := by
  induction offs generalizing i k with
  | nil => simp at hk2
  | cons off offs ih =>
    cases k with
    | zero => simp [bindCalls]
    | succ k =>
      simp only [List.length_cons, Nat.add_lt_add_iff_right] at hk2
      have hk3 : k < (bindCalls mem (i + 1) offs).length := by
        rw [bindCalls_length]; exact hk2
      have h := ih (i + 1) k hk3 hk2
      have hidx : i + 1 + k = i + (k + 1) := by omega
      simp only [bindCalls, List.getElem_cons_succ, h, hidx]

theorem bindLoop_objs_length (drv : Driver) (mem i : Nat) (objs : List MemObject)
    (offs : List Nat) : (bindLoop drv mem i objs offs).2.1.length = objs.length := by
  induction objs generalizing i offs with
  | nil => simp [bindLoop]
  | cons obj objs ih =>
    cases offs with
    | nil => simp [bindLoop]
    | cons off offs =>
      by_cases hb : drv.bindResource i mem off = true
      · simp [bindLoop, hb, ih]
      · simp [bindLoop, hb]

theorem bindLoop_all_ok (drv : Driver) (mem i : Nat) (objs : List MemObject) (offs : List Nat)
    (hlen : objs.length = offs.length)
    (hbind : ∀ k (hk : k < offs.length), drv.bindResource (i + k) mem offs[k] = true) :
    (bindLoop drv mem i objs offs).1 = true ∧
    (bindLoop drv mem i objs offs).2.2 = bindCalls mem i offs ∧
    ∀ k (hk : k < (bindLoop drv mem i objs offs).2.1.length) (hk2 : k < offs.length),
      (bindLoop drv mem i objs offs).2.1[k].memOffset_ = offs[k] := by
  induction objs generalizing i offs with
  | nil =>
    cases offs with
    | nil => simp [bindLoop, bindCalls]
    | cons off offs => simp at hlen
  | cons obj objs ih =>
    cases offs with
    | nil => simp at hlen
    | cons off offs =>
      simp only [List.length_cons, Nat.add_right_cancel_iff] at hlen
      have hb : drv.bindResource i mem off = true := by
        simpa using hbind 0 (by simp)
      have hrest : ∀ k (hk : k < offs.length),
          drv.bindResource (i + 1 + k) mem offs[k] = true := by
        intro k hk
        have := hbind (k + 1) (by simp only [List.length_cons]; omega)
        have hidx : i + (k + 1) = i + 1 + k := by omega
        simpa [hidx] using this
      obtain ⟨h1, h2, h3⟩ := ih (i + 1) offs hlen hrest
      refine ⟨by simp [bindLoop, hb, h1], by simp [bindLoop, hb, h2, bindCalls], ?_⟩
      intro k hk hk2
      cases k with
      | zero => simp [bindLoop, hb]
      | succ k =>
        simp only [List.length_cons, Nat.add_lt_add_iff_right] at hk2
        have hk3 : k < (bindLoop drv mem (i + 1) objs offs).2.1.length := by
          rw [bindLoop_objs_length]; omega
        have := h3 k hk3 hk2
        simpa [bindLoop, hb] using this

theorem bindLoop_fail_at (drv : Driver) (mem i k : Nat) (objs : List MemObject)
    (offs : List Nat) (hlen : objs.length = offs.length) (hk : k < offs.length)
    (hok : ∀ j (hj : j < k), drv.bindResource (i + j) mem offs[j] = true)
    (hfail : drv.bindResource (i + k) mem offs[k] = false) :
    (bindLoop drv mem i objs offs).1 = false ∧
    (bindLoop drv mem i objs offs).2.2 = bindCalls mem i (offs.take (k + 1)) := by
  induction objs generalizing i k offs with
  | nil =>
    cases offs with
    | nil => simp at hk
    | cons off offs => simp at hlen
  | cons obj objs ih =>
    cases offs with
    | nil => simp at hlen
    | cons off offs =>
      simp only [List.length_cons, Nat.add_right_cancel_iff] at hlen
      cases k with
      | zero =>
        have hb : drv.bindResource i mem off = false := by simpa using hfail
        simp [bindLoop, hb, bindCalls]
      | succ k =>
        simp only [List.length_cons, Nat.add_lt_add_iff_right] at hk
        have hb : drv.bindResource i mem off = true := by
          simpa using hok 0 (by omega)
        have hrest : ∀ j (hj : j < k), drv.bindResource (i + 1 + j) mem offs[j] = true := by
          intro j hj
          have := hok (j + 1) (by omega)
          have hidx : i + (j + 1) = i + 1 + j := by omega
          simpa [hidx] using this
        have hfail2 : drv.bindResource (i + 1 + k) mem offs[k] = false := by
          have hidx : i + (k + 1) = i + 1 + k := by omega
          simpa [hidx] using hfail
        obtain ⟨h1, h2⟩ := ih (i + 1) k offs hlen hk hrest hfail2
        exact ⟨by simp [bindLoop, hb, h1], by simp [bindLoop, hb, h2, bindCalls]⟩

theorem bindLoop_true_iff (drv : Driver) (mem i : Nat) (objs : List MemObject)
    (offs : List Nat) (hlen : objs.length = offs.length) :
    (bindLoop drv mem i objs offs).1 = true ↔
      ∀ k (hk : k < offs.length), drv.bindResource (i + k) mem offs[k] = true := by
  constructor
  · intro htrue
    induction objs generalizing i offs with
    | nil =>
      cases offs with
      | nil => intro k hk; simp at hk
      | cons off offs => simp at hlen
    | cons obj objs ih =>
      cases offs with
      | nil => simp at hlen
      | cons off offs =>
        simp only [List.length_cons, Nat.add_right_cancel_iff] at hlen
        by_cases hb : drv.bindResource i mem off = true
        · simp only [bindLoop, hb, if_true] at htrue
          have hrec := ih (i + 1) offs hlen htrue
          intro k hk
          cases k with
          | zero => simpa using hb
          | succ k =>
            simp only [List.length_cons, Nat.add_lt_add_iff_right] at hk
            have := hrec k hk
            have hidx : i + (k + 1) = i + 1 + k := by omega
            simpa [hidx] using this
        · simp [bindLoop, hb] at htrue
  · intro hall
    exact (bindLoop_all_ok drv mem i objs offs hlen hall).1

/-! ## Memory::findMemoryType and Memory::allocate — selection and failure claims -/

/-- C11: when some memory type has flags equal to the mask, `Memory::findMemoryType` returns
the lowest index whose flags equal the mask, whatever the flags of the lower-indexed memory
types are (strict supersets of the mask included). -/
theorem findMemoryType_prefers_exact (types : List Nat) (mask : Nat) (hex : mask ∈ types) :
    ∃ i, findMemoryType types mask = i ∧ i < types.length ∧ types[i]? = some mask ∧
      ∀ j, j < i → types[j]? ≠ some mask :=
  findMemoryType_exact_spec types mask hex

/-- Witness of C11: with flags `[3, 1]` and mask `1` the index `1` is returned, although
index `0` holds a strict superset of the mask. -/
theorem findMemoryType_prefers_exact_witness :
    (3 &&& 1 = 1 ∧ 3 ≠ 1) ∧ findMemoryType [3, 1] 1 = 1 ∧
    ∃ i, findMemoryType [3, 1] 1 = i ∧ i < [3, 1].length ∧ [3, 1][i]? = some 1 ∧
      ∀ j, j < i → [3, 1][j]? ≠ some 1 :=
  ⟨by decide, by decide, findMemoryType_prefers_exact [3, 1] 1 (by decide)⟩

/-- C12: when no memory type has flags equal to the mask but some memory type contains the
mask, `Memory::findMemoryType` returns the lowest index whose flags contain the mask, and
`Memory::allocate` (resources registered, layout computed, device set) calls
`vkAllocateMemory` with that index; it returns `true` when that call and the binds succeed. -/
theorem allocate_falls_back_to_superset (drv : Driver) (m : Memory) (offsets : List Nat)
    (requiredSize device : Nat)
    (hlay : computeLayout m.memObjects_ = some (offsets, requiredSize))
    (hdev : m.device_ = some device)
    (hcount : drv.memoryTypes.length ≤ NOT_FOUND)
    (hno : ∀ f ∈ drv.memoryTypes, f ≠ m.propertyFlags_)
    (hsup : ∃ f ∈ drv.memoryTypes, f &&& m.propertyFlags_ = m.propertyFlags_) :
    ∃ i, findMemoryType drv.memoryTypes m.propertyFlags_ = i ∧
      i < drv.memoryTypes.length ∧
      (∃ f, drv.memoryTypes[i]? = some f ∧ f &&& m.propertyFlags_ = m.propertyFlags_) ∧
      (∀ j, j < i → ∀ g, drv.memoryTypes[j]? = some g →
        g &&& m.propertyFlags_ ≠ m.propertyFlags_) ∧
      ∃ r, allocate drv m = some r ∧
        r.2.2.take 2 = [Call.getMemoryProperties, Call.allocateMemory requiredSize i] ∧
        ∀ handle, drv.allocateMemory requiredSize i = some handle →
          (∀ k (hk : k < offsets.length), drv.bindResource k handle offsets[k] = true) →
          r.1 = true := by
  obtain ⟨i, hi, hlt, hsupi, hleast⟩ :=
    findMemoryType_superset_spec drv.memoryTypes m.propertyFlags_ hno hsup
  have hfound : findMemoryType drv.memoryTypes m.propertyFlags_ ≠ NOT_FOUND := by omega
  have hlen := (computeLayout_length _ _ _ hlay).2
  refine ⟨i, hi, hlt, hsupi, hleast, ?_⟩
  rw [allocate_of_layout drv m offsets requiredSize device hlay hdev, if_neg hfound, hi]
  cases hall : drv.allocateMemory requiredSize i with
  | none => exact ⟨_, rfl, by simp, by intro handle hh; simp at hh⟩
  | some handle =>
    refine ⟨_, rfl, by simp, ?_⟩
    intro handle2 hh hbind
    simp only [Option.some.injEq] at hh
    subst hh
    exact (bindLoop_all_ok drv handle 0 m.memObjects_ offsets hlen.symm
      (by intro k hk; simpa using hbind k hk)).1

/-- Witness of C12: flags `[2, 3]` and mask `1`; the allocation is made with index `1`. -/
theorem allocate_falls_back_to_superset_witness :
    ∃ i, findMemoryType driverSupersetOnly.memoryTypes (arenaOf sceneA).propertyFlags_ = i ∧
      i < driverSupersetOnly.memoryTypes.length ∧
      (∃ f, driverSupersetOnly.memoryTypes[i]? = some f ∧
        f &&& (arenaOf sceneA).propertyFlags_ = (arenaOf sceneA).propertyFlags_) ∧
      (∀ j, j < i → ∀ g, driverSupersetOnly.memoryTypes[j]? = some g →
        g &&& (arenaOf sceneA).propertyFlags_ ≠ (arenaOf sceneA).propertyFlags_) ∧
      ∃ r, allocate driverSupersetOnly (arenaOf sceneA) = some r ∧
        r.2.2.take 2 = [Call.getMemoryProperties, Call.allocateMemory 330 i] ∧
        ∀ handle, driverSupersetOnly.allocateMemory 330 i = some handle →
          (∀ k (hk : k < [0, 256].length),
            driverSupersetOnly.bindResource k handle [0, 256][k] = true) →
          r.1 = true :=
  allocate_falls_back_to_superset driverSupersetOnly (arenaOf sceneA) [0, 256] 330 0
    (by decide) (by decide) (by decide) (by decide) (by decide)

/-- C13: `Memory::findMemoryType` (at most `2 ^ 32 - 1` memory types, the count being a
`uint32_t`) returns `~uint32_t(0)` exactly when no memory type contains every bit of the
mask; `Memory::allocate` (alignments positive, device set) then returns `false`, leaves the
arena as it was, and calls nothing but the memory-properties query. -/
theorem allocate_no_suitable_memory (drv : Driver) (m : Memory)
    (hcount : drv.memoryTypes.length ≤ NOT_FOUND)
    (halign : ∀ o ∈ m.memObjects_, 0 < o.memAlign_) (hdev : m.device_ ≠ none) :
    (findMemoryType drv.memoryTypes m.propertyFlags_ = NOT_FOUND ↔
      ∀ f ∈ drv.memoryTypes, f &&& m.propertyFlags_ ≠ m.propertyFlags_) ∧
    ((∀ f ∈ drv.memoryTypes, f &&& m.propertyFlags_ ≠ m.propertyFlags_) →
      ∃ calls, allocate drv m = some (false, m, calls) ∧
        ∀ c ∈ calls, c = Call.getMemoryProperties) := by
  have hiff := findMemoryType_eq_not_found_iff drv.memoryTypes m.propertyFlags_ hcount
  refine ⟨hiff, ?_⟩
  intro hnone
  have hnf := hiff.2 hnone
  by_cases hobjs : m.memObjects_ = []
  · exact ⟨[], by simp [allocate, hobjs], by simp⟩
  · obtain ⟨offsets, req, hlay, _⟩ := computeLayout_some m.memObjects_ hobjs halign
    obtain ⟨device, hd⟩ := Option.ne_none_iff_exists'.1 hdev
    refine ⟨[Call.getMemoryProperties], ?_, by simp⟩
    rw [allocate_of_layout drv m offsets req device hlay hd, if_pos hnf]

/-- Witness of C13: the only memory type has flags `2`, the mask is `1`. -/
theorem allocate_no_suitable_memory_witness :
    findMemoryType driverNoMatch.memoryTypes (arenaOf sceneA).propertyFlags_ = NOT_FOUND ∧
    ∃ calls, allocate driverNoMatch (arenaOf sceneA) = some (false, arenaOf sceneA, calls) ∧
      ∀ c ∈ calls, c = Call.getMemoryProperties :=
  ⟨by decide,
    (allocate_no_suitable_memory driverNoMatch (arenaOf sceneA)
      (by decide) (by decide) (by decide)).2 (by decide)⟩

/-- C14: `Memory::allocate` (alignments positive, device set) returns `true` exactly when
at least one resource is registered, a memory type is found, `vkAllocateMemory` succeeds and
the bind of every registered resource at its computed offset succeeds. -/
theorem allocate_success_iff (drv : Driver) (m : Memory)
    (halign : ∀ o ∈ m.memObjects_, 0 < o.memAlign_) (hdev : m.device_ ≠ none) :
    ∃ r, allocate drv m = some r ∧
      (r.1 = true ↔
        (m.memObjects_ ≠ [] ∧
          findMemoryType drv.memoryTypes m.propertyFlags_ ≠ NOT_FOUND ∧
          ∃ offsets requiredSize handle,
            computeLayout m.memObjects_ = some (offsets, requiredSize) ∧
            drv.allocateMemory requiredSize
              (findMemoryType drv.memoryTypes m.propertyFlags_) = some handle ∧
            ∀ k (hk : k < offsets.length), drv.bindResource k handle offsets[k] = true)) := by
  by_cases hobjs : m.memObjects_ = []
  · exact ⟨(false, m, []), by simp [allocate, hobjs], by simp [hobjs]⟩
  · obtain ⟨offsets, req, hlay, hlen⟩ := computeLayout_some m.memObjects_ hobjs halign
    obtain ⟨device, hd⟩ := Option.ne_none_iff_exists'.1 hdev
    rw [allocate_of_layout drv m offsets req device hlay hd]
    by_cases hnf : findMemoryType drv.memoryTypes m.propertyFlags_ = NOT_FOUND
    · rw [if_pos hnf]
      exact ⟨_, rfl, by simp [hnf]⟩
    · rw [if_neg hnf]
      cases hall : drv.allocateMemory req
          (findMemoryType drv.memoryTypes m.propertyFlags_) with
      | none =>
        refine ⟨_, rfl, ?_⟩
        constructor
        · intro h; simp at h
        · rintro ⟨_, _, offs2, req2, handle, hlay2, halloc2, _⟩
          rw [hlay] at hlay2
          simp only [Option.some.injEq, Prod.mk.injEq] at hlay2
          rw [← hlay2.2, hall] at halloc2
          simp at halloc2
      | some handle =>
        refine ⟨_, rfl, ?_⟩
        have hiff := bindLoop_true_iff drv handle 0 m.memObjects_ offsets hlen.symm
        constructor
        · intro h
          refine ⟨hobjs, hnf, offsets, req, handle, hlay, hall, ?_⟩
          intro k hk
          simpa using hiff.1 h k hk
        · rintro ⟨_, _, offs2, req2, handle2, hlay2, halloc2, hbind⟩
          rw [hlay] at hlay2
          simp only [Option.some.injEq, Prod.mk.injEq] at hlay2
          obtain ⟨ho, hr⟩ := hlay2
          subst ho
          subst hr
          rw [hall] at halloc2
          simp only [Option.some.injEq] at halloc2
          subst halloc2
          apply hiff.2
          intro k hk
          simpa using hbind k hk

/-- Witness of C14 on the resources `{256, 256}`, `{37, 64}` with a driver on which the
second bind fails: `allocate` returns `false`. -/
theorem allocate_success_iff_witness :
    ∃ r, allocate driverBindFails (arenaOf sceneA) = some r ∧ r.1 = false ∧
      (r.1 = true ↔
        ((arenaOf sceneA).memObjects_ ≠ [] ∧
          findMemoryType driverBindFails.memoryTypes (arenaOf sceneA).propertyFlags_
            ≠ NOT_FOUND ∧
          ∃ offsets requiredSize handle,
            computeLayout (arenaOf sceneA).memObjects_ = some (offsets, requiredSize) ∧
            driverBindFails.allocateMemory requiredSize
              (findMemoryType driverBindFails.memoryTypes (arenaOf sceneA).propertyFlags_)
                = some handle ∧
            ∀ k (hk : k < offsets.length),
              driverBindFails.bindResource k handle offsets[k] = true)) := by
  obtain ⟨r, hr, hiff⟩ :=
    allocate_success_iff driverBindFails (arenaOf sceneA) (by decide) (by decide)
  refine ⟨r, hr, ?_, hiff⟩
  have hval : allocate driverBindFails (arenaOf sceneA)
      = some (false, ⟨some 0, 0, 1, 7, [⟨256, 256, 0, 0⟩, ⟨37, 64, 0, 256⟩], true⟩,
          [Call.getMemoryProperties, Call.allocateMemory 330 0,
            Call.bindResource 0 7 0, Call.bindResource 1 7 256]) := by decide
  rw [hval] at hr
  simp only [Option.some.injEq] at hr
  rw [← hr]

/-- C15: when `vkAllocateMemory` and every bind succeed, `Memory::allocate` returns `true`
and its bind calls are exactly one per registered resource, in registration order, each with
the handle just allocated and the resource's computed offset; afterwards the arena holds that
handle and each resource's `memOffset_` is the offset it was bound at. -/
theorem allocate_binds_every_resource (drv : Driver) (m : Memory) (offsets : List Nat)
    (requiredSize device handle : Nat)
    (hlay : computeLayout m.memObjects_ = some (offsets, requiredSize))
    (hdev : m.device_ = some device)
    (hfound : findMemoryType drv.memoryTypes m.propertyFlags_ ≠ NOT_FOUND)
    (halloc : drv.allocateMemory requiredSize
      (findMemoryType drv.memoryTypes m.propertyFlags_) = some handle)
    (hbind : ∀ k (hk : k < offsets.length), drv.bindResource k handle offsets[k] = true) :
    ∃ after binds,
      allocate drv m = some (true, after,
        [Call.getMemoryProperties,
          Call.allocateMemory requiredSize
            (findMemoryType drv.memoryTypes m.propertyFlags_)] ++ binds) ∧
      binds.length = m.memObjects_.length ∧
      (∀ k (hk : k < binds.length) (hk2 : k < offsets.length),
        binds[k] = Call.bindResource k handle offsets[k]) ∧
      after.memory_ = handle ∧
      after.memObjects_.length = m.memObjects_.length ∧
      ∀ k (hk : k < after.memObjects_.length) (hk2 : k < offsets.length),
        after.memObjects_[k].memOffset_ = offsets[k] := by
  have hlen := (computeLayout_length _ _ _ hlay).2
  obtain ⟨h1, h2, h3⟩ := bindLoop_all_ok drv handle 0 m.memObjects_ offsets hlen.symm
    (by intro k hk; simpa using hbind k hk)
  refine ⟨{ m with
            memory_ := handle,
            memObjects_ := (bindLoop drv handle 0 m.memObjects_ offsets).2.1 },
    bindCalls handle 0 offsets, ?_, ?_, ?_, rfl, ?_, ?_⟩
  · rw [allocate_of_layout drv m offsets requiredSize device hlay hdev, if_neg hfound]
    simp only [halloc, h1, h2]
  · rw [bindCalls_length, hlen]
  · intro k hk hk2
    simpa using bindCalls_getElem handle 0 k offsets hk hk2
  · exact bindLoop_objs_length drv handle 0 m.memObjects_ offsets
  · intro k hk hk2
    exact h3 k hk hk2

/-- Witness of C15 on the resources `{256, 256}`, `{37, 64}`. -/
theorem allocate_binds_every_resource_witness :
    ∃ after binds,
      allocate driverOk (arenaOf sceneA) = some (true, after,
        [Call.getMemoryProperties,
          Call.allocateMemory 330
            (findMemoryType driverOk.memoryTypes (arenaOf sceneA).propertyFlags_)] ++ binds) ∧
      binds.length = (arenaOf sceneA).memObjects_.length ∧
      (∀ k (hk : k < binds.length) (hk2 : k < [0, 256].length),
        binds[k] = Call.bindResource k 7 [0, 256][k]) ∧
      after.memory_ = 7 ∧
      after.memObjects_.length = (arenaOf sceneA).memObjects_.length ∧
      ∀ k (hk : k < after.memObjects_.length) (hk2 : k < [0, 256].length),
        after.memObjects_[k].memOffset_ = [0, 256][k] :=
  allocate_binds_every_resource driverOk (arenaOf sceneA) [0, 256] 330 0 7
    (by decide) (by decide) (by decide) (by decide) (by decide)

/-- C16: when `vkAllocateMemory` succeeds with a non-null handle, the binds of the resources
before index `k` succeed and the bind of resource `k` fails, `Memory::allocate` returns
`false`; its bind calls are those of the resources `0` to `k` and no other, no
`vkFreeMemory` call is made, and the arena keeps the handle just allocated. -/
theorem allocate_stops_at_failed_bind (drv : Driver) (m : Memory) (offsets : List Nat)
    (requiredSize device handle k : Nat)
    (hlay : computeLayout m.memObjects_ = some (offsets, requiredSize))
    (hdev : m.device_ = some device)
    (hfound : findMemoryType drv.memoryTypes m.propertyFlags_ ≠ NOT_FOUND)
    (halloc : drv.allocateMemory requiredSize
      (findMemoryType drv.memoryTypes m.propertyFlags_) = some handle)
    (hvalid : handle ≠ VK_NULL_HANDLE)
    (hk : k < offsets.length)
    (hok : ∀ j (hj : j < k), drv.bindResource j handle offsets[j] = true)
    (hfail : drv.bindResource k handle offsets[k] = false) :
    ∃ after binds,
      allocate drv m = some (false, after,
        [Call.getMemoryProperties,
          Call.allocateMemory requiredSize
            (findMemoryType drv.memoryTypes m.propertyFlags_)] ++ binds) ∧
      binds.length = k + 1 ∧
      (∀ j (hj : j < binds.length) (hj2 : j < offsets.length),
        binds[j] = Call.bindResource j handle offsets[j]) ∧
      (∀ c ∈ binds, ∀ mem, c ≠ Call.freeMemory mem) ∧
      after.memory_ = handle ∧ after.memory_ ≠ VK_NULL_HANDLE := by
  have hlen := (computeLayout_length _ _ _ hlay).2
  obtain ⟨h1, h2⟩ := bindLoop_fail_at drv handle 0 k m.memObjects_ offsets hlen.symm hk
    (by intro j hj; simpa using hok j hj) (by simpa using hfail)
  have htake : (offsets.take (k + 1)).length = k + 1 := by
    rw [List.length_take]; omega
  have hget : ∀ j (hj : j < (bindCalls handle 0 (offsets.take (k + 1))).length)
      (hj2 : j < offsets.length),
      (bindCalls handle 0 (offsets.take (k + 1)))[j]
        = Call.bindResource j handle offsets[j] := by
    intro j hj hj2
    have hj3 : j < (offsets.take (k + 1)).length := by
      rw [bindCalls_length] at hj; exact hj
    have := bindCalls_getElem handle 0 j (offsets.take (k + 1)) hj hj3
    simpa [List.getElem_take] using this
  refine ⟨{ m with
            memory_ := handle,
            memObjects_ := (bindLoop drv handle 0 m.memObjects_ offsets).2.1 },
    bindCalls handle 0 (offsets.take (k + 1)), ?_, ?_, hget, ?_, rfl, hvalid⟩
  · rw [allocate_of_layout drv m offsets requiredSize device hlay hdev, if_neg hfound]
    simp only [halloc, h1, h2]
  · rw [bindCalls_length, htake]
  · intro c hc mem hcm
    obtain ⟨j, hj, hcj⟩ := List.getElem_of_mem hc
    have hj2 : j < offsets.length := by
      rw [bindCalls_length, htake] at hj; omega
    rw [hget j hj hj2] at hcj
    rw [hcm] at hcj
    cases hcj

/-- Witness of C16 on the resources `{256, 256}`, `{37, 64}` with a driver on which the bind
of the resource of index `1` fails. -/
theorem allocate_stops_at_failed_bind_witness :
    ∃ after binds,
      allocate driverBindFails (arenaOf sceneA) = some (false, after,
        [Call.getMemoryProperties,
          Call.allocateMemory 330
            (findMemoryType driverBindFails.memoryTypes (arenaOf sceneA).propertyFlags_)]
          ++ binds) ∧
      binds.length = 1 + 1 ∧
      (∀ j (hj : j < binds.length) (hj2 : j < [0, 256].length),
        binds[j] = Call.bindResource j 7 [0, 256][j]) ∧
      (∀ c ∈ binds, ∀ mem, c ≠ Call.freeMemory mem) ∧
      after.memory_ = 7 ∧ after.memory_ ≠ VK_NULL_HANDLE :=
  allocate_stops_at_failed_bind driverBindFails (arenaOf sceneA) [0, 256] 330 0 7 1
    (by decide) (by decide) (by decide) (by decide) (by decide) (by decide) (by decide)
    (by decide)

/-- C17: when `vkAllocateMemory` fails, `Memory::allocate` returns `false` having made the
memory-properties query and that one allocation call and nothing else (no second attempt, no
bind), and the registered resources, their recorded offsets included, are as before. -/
theorem allocate_allocation_failure (drv : Driver) (m : Memory) (offsets : List Nat)
    (requiredSize device : Nat)
    (hlay : computeLayout m.memObjects_ = some (offsets, requiredSize))
    (hdev : m.device_ = some device)
    (hfound : findMemoryType drv.memoryTypes m.propertyFlags_ ≠ NOT_FOUND)
    (halloc : drv.allocateMemory requiredSize
      (findMemoryType drv.memoryTypes m.propertyFlags_) = none) :
    ∃ after,
      allocate drv m = some (false, after,
        [Call.getMemoryProperties,
          Call.allocateMemory requiredSize
            (findMemoryType drv.memoryTypes m.propertyFlags_)]) ∧
      after.memObjects_ = m.memObjects_ := by
  refine ⟨{ m with
            memory_ := (drv.failedAllocationWrites requiredSize
              (findMemoryType drv.memoryTypes m.propertyFlags_)).getD m.memory_ }, ?_, rfl⟩
  rw [allocate_of_layout drv m offsets requiredSize device hlay hdev, if_neg hfound]
  simp only [halloc]

/-- Witness of C17 on the resources `{256, 256}`, `{37, 64}` with a driver on which the
allocation fails. -/
theorem allocate_allocation_failure_witness :
    ∃ after,
      allocate driverAllocFails (arenaOf sceneA) = some (false, after,
        [Call.getMemoryProperties,
          Call.allocateMemory 330
            (findMemoryType driverAllocFails.memoryTypes (arenaOf sceneA).propertyFlags_)]) ∧
      after.memObjects_ = (arenaOf sceneA).memObjects_ :=
  allocate_allocation_failure driverAllocFails (arenaOf sceneA) [0, 256] 330 0
    (by decide) (by decide) (by decide) (by decide)

/-! ## Memory::release and Memory::clear -/

theorem release_of_null (m : Memory) (hnull : m.memory_ = VK_NULL_HANDLE) :
    release m = some (m, []) := by
  simp [release, hnull]

theorem release_of_handle (m : Memory) (device : Nat) (hmem : m.memory_ ≠ VK_NULL_HANDLE)
    (hdev : m.device_ = some device) :
    release m = some ({ m with memory_ := VK_NULL_HANDLE }, [Call.freeMemory m.memory_]) := by
  simp [release, hmem, hdev]

/-- C18: `Memory::release` is idempotent. On an arena whose device is set whenever it holds
an allocation, a first `release` makes one `vkFreeMemory` call if a handle is held and none
otherwise; a second `release` makes no call and leaves the state the first one produced; on
an arena that holds no allocation `release` changes nothing and calls nothing. -/
theorem release_idempotent (m : Memory)
    (hdev : m.memory_ ≠ VK_NULL_HANDLE → m.device_ ≠ none) :
    ∃ once calls, release m = some (once, calls) ∧
      release once = some (once, []) ∧
      (m.memory_ ≠ VK_NULL_HANDLE → calls = [Call.freeMemory m.memory_]) ∧
      (m.memory_ = VK_NULL_HANDLE → once = m ∧ calls = []) := by
  by_cases hmem : m.memory_ = VK_NULL_HANDLE
  · exact ⟨m, [], release_of_null m hmem, release_of_null m hmem,
      fun h => absurd hmem h, fun _ => ⟨rfl, rfl⟩⟩
  · obtain ⟨device, hd⟩ := Option.ne_none_iff_exists'.1 (hdev hmem)
    exact ⟨_, _, release_of_handle m device hmem hd, release_of_null _ rfl,
      fun _ => rfl, fun h => absurd h hmem⟩

/-- Witness of C18 on an arena that holds the handle `7`. -/
theorem release_idempotent_witness :
    ∃ once calls, release arenaAllocated = some (once, calls) ∧
      release once = some (once, []) ∧
      (arenaAllocated.memory_ ≠ VK_NULL_HANDLE →
        calls = [Call.freeMemory arenaAllocated.memory_]) ∧
      (arenaAllocated.memory_ = VK_NULL_HANDLE → once = arenaAllocated ∧ calls = []) :=
  release_idempotent arenaAllocated (by decide)

/-- C19: `Memory::release` sets the allocation handle to null and changes no other member
(resource list, property mask, device pointer, initialized flag, allocated size), whereas
`Memory::clear` makes the same driver calls and leaves every member at its empty value. -/
theorem release_keeps_members_clear_resets (m : Memory)
    (hdev : m.memory_ ≠ VK_NULL_HANDLE → m.device_ ≠ none) :
    ∃ released cleared calls,
      release m = some (released, calls) ∧
      released.memory_ = VK_NULL_HANDLE ∧
      released.memObjects_ = m.memObjects_ ∧
      released.propertyFlags_ = m.propertyFlags_ ∧
      released.device_ = m.device_ ∧
      released.initialized_ = m.initialized_ ∧
      released.allocatedSize_ = m.allocatedSize_ ∧
      clear m = some (cleared, calls) ∧
      cleared = ⟨none, 0, 0, VK_NULL_HANDLE, [], false⟩ := by
  by_cases hmem : m.memory_ = VK_NULL_HANDLE
  · refine ⟨m, _, [], release_of_null m hmem, hmem, rfl, rfl, rfl, rfl, rfl, ?_, rfl⟩
    simp [clear, release_of_null m hmem]
  · obtain ⟨device, hd⟩ := Option.ne_none_iff_exists'.1 (hdev hmem)
    refine ⟨_, _, _, release_of_handle m device hmem hd, rfl, rfl, rfl, rfl, rfl, rfl, ?_, rfl⟩
    simp [clear, release_of_handle m device hmem hd]

/-- Witness of C19 on an arena that holds the handle `7`. -/
theorem release_keeps_members_clear_resets_witness :
    ∃ released cleared calls,
      release arenaAllocated = some (released, calls) ∧
      released.memory_ = VK_NULL_HANDLE ∧
      released.memObjects_ = arenaAllocated.memObjects_ ∧
      released.propertyFlags_ = arenaAllocated.propertyFlags_ ∧
      released.device_ = arenaAllocated.device_ ∧
      released.initialized_ = arenaAllocated.initialized_ ∧
      released.allocatedSize_ = arenaAllocated.allocatedSize_ ∧
      clear arenaAllocated = some (cleared, calls) ∧
      cleared = ⟨none, 0, 0, VK_NULL_HANDLE, [], false⟩ :=
  release_keeps_members_clear_resets arenaAllocated (by decide)

/-! ## Sequences of lifetime operations -/

theorem bindLoop_calls_counts (drv drv2 : Driver) (mem i : Nat) (objs : List MemObject)
    (offs : List Nat) :
    successfulAllocations drv2 (bindLoop drv mem i objs offs).2.2 = 0 ∧
    freeCalls (bindLoop drv mem i objs offs).2.2 = 0 := by
  induction objs generalizing i offs with
  | nil => simp [bindLoop, successfulAllocations, freeCalls]
  | cons obj objs ih =>
    cases offs with
    | nil => simp [bindLoop, successfulAllocations, freeCalls]
    | cons off offs =>
      by_cases hb : drv.bindResource i mem off = true
      · simp [bindLoop, hb, successfulAllocations, freeCalls, ih]
      · simp [bindLoop, hb, successfulAllocations, freeCalls]

theorem bindLoop_aligns (drv : Driver) (mem i : Nat) (objs : List MemObject)
    (offs : List Nat) (halign : ∀ o ∈ objs, 0 < o.memAlign_) :
    ∀ o ∈ (bindLoop drv mem i objs offs).2.1, 0 < o.memAlign_ := by
  induction objs generalizing i offs with
  | nil => simp [bindLoop]
  | cons obj objs ih =>
    have ha : 0 < obj.memAlign_ := halign obj (by simp)
    have hrest : ∀ o ∈ objs, 0 < o.memAlign_ := fun o ho => halign o (by simp [ho])
    cases offs with
    | nil => simpa [bindLoop] using halign
    | cons off offs =>
      by_cases hb : drv.bindResource i mem off = true
      · have hrec := ih (i + 1) offs hrest
        intro o ho
        simp only [bindLoop, hb, if_true, List.mem_cons] at ho
        rcases ho with h | h
        · rw [h]; exact ha
        · exact hrec o h
      · intro o ho
        have hb2 : drv.bindResource i mem off = false := by simpa using hb
        have ho2 : o = { obj with memOffset_ := off } ∨ o ∈ objs := by
          simpa [bindLoop, hb2] using ho
        rcases ho2 with h | h
        · rw [h]; exact ha
        · exact hrest o h

theorem step_init_consistent (w : Ledger) (device properties : Nat) (hinv : w.Consistent) :
    ∃ w1, step w (Op.init device properties) = some w1 ∧ w1.Consistent := by
  obtain ⟨⟨hd, hm, ho, ha⟩, hled⟩ := hinv
  refine ⟨_, rfl, ?_⟩
  by_cases hi : w.arena.initialized_ = true
  · simp only [init, hi, Bool.not_true]
    exact ⟨⟨hd, hm, ho, ha⟩, hled⟩
  · have hnull : w.arena.memory_ = VK_NULL_HANDLE := by
      by_contra hne
      exact hi (hd (hm hne))
    simp only [Bool.not_eq_true] at hi
    simp only [init, hi, Bool.not_false, if_true]
    refine ⟨⟨fun _ => rfl, fun h => absurd rfl h, fun _ => by simp, ha⟩, ?_⟩
    simpa [hnull] using hled

theorem step_release_consistent (w : Ledger) (hinv : w.Consistent) :
    ∃ w1, step w Op.release = some w1 ∧ w1.Consistent := by
  obtain ⟨⟨hd, hm, ho, ha⟩, hled⟩ := hinv
  by_cases hmem : w.arena.memory_ = VK_NULL_HANDLE
  · refine ⟨⟨w.arena, w.allocations, w.frees + 0⟩, ?_, ?_⟩
    · simp [step, release_of_null w.arena hmem, freeCalls]
    · exact ⟨⟨hd, hm, ho, ha⟩, by simpa using hled⟩
  · obtain ⟨device, hdv⟩ := Option.ne_none_iff_exists'.1 (hm hmem)
    refine ⟨⟨{ w.arena with memory_ := VK_NULL_HANDLE }, w.allocations, w.frees + 1⟩, ?_, ?_⟩
    · simp [step, release_of_handle w.arena device hmem hdv, freeCalls]
    · refine ⟨⟨hd, fun h => absurd rfl h, ho, ha⟩, ?_⟩
      simpa [hmem] using hled

theorem step_clear_consistent (w : Ledger) (hinv : w.Consistent) :
    ∃ w1, step w Op.clear = some w1 ∧ w1.Consistent := by
  obtain ⟨⟨hd, hm, ho, ha⟩, hled⟩ := hinv
  by_cases hmem : w.arena.memory_ = VK_NULL_HANDLE
  · refine ⟨⟨⟨none, 0, 0, VK_NULL_HANDLE, [], false⟩, w.allocations, w.frees + 0⟩, ?_, ?_⟩
    · simp [step, clear, release_of_null w.arena hmem, freeCalls]
    · refine ⟨⟨fun h => absurd rfl h, fun h => absurd rfl h, fun h => absurd rfl h,
        by simp⟩, ?_⟩
      simpa [hmem] using hled
  · obtain ⟨device, hdv⟩ := Option.ne_none_iff_exists'.1 (hm hmem)
    refine ⟨⟨⟨none, 0, 0, VK_NULL_HANDLE, [], false⟩, w.allocations, w.frees + 1⟩, ?_, ?_⟩
    · simp [step, clear, release_of_handle w.arena device hmem hdv, freeCalls]
    · refine ⟨⟨fun h => absurd rfl h, fun h => absurd rfl h, fun h => absurd rfl h,
        by simp⟩, ?_⟩
      simpa [hmem] using hled

theorem step_allocate_consistent (w : Ledger) (drv : Driver) (hinv : w.Consistent)
    (hvalid : drv.handlesValid) (hfail : drv.failureLeavesNull)
    (hfree : w.arena.memory_ = VK_NULL_HANDLE) :
    ∃ w1, step w (Op.allocate drv) = some w1 ∧ w1.Consistent := by
  obtain ⟨⟨hd, hm, ho, ha⟩, hled⟩ := hinv
  have hled0 : w.allocations = w.frees := by simpa [hfree] using hled
  by_cases hobjs : w.arena.memObjects_ = []
  · refine ⟨⟨w.arena, w.allocations + 0, w.frees + 0⟩, ?_, ?_⟩
    · simp [step, allocate, hobjs, successfulAllocations, freeCalls]
    · exact ⟨⟨hd, hm, ho, ha⟩, by simpa using hled⟩
  · obtain ⟨offsets, req, hlay, hlen⟩ := computeLayout_some w.arena.memObjects_ hobjs ha
    obtain ⟨device, hdv⟩ := Option.ne_none_iff_exists'.1 (ho hobjs)
    have hal := allocate_of_layout drv w.arena offsets req device hlay hdv
    by_cases hnf : findMemoryType drv.memoryTypes w.arena.propertyFlags_ = NOT_FOUND
    · rw [if_pos hnf] at hal
      refine ⟨⟨w.arena, w.allocations + 0, w.frees + 0⟩, ?_, ?_⟩
      · simp [step, hal, successfulAllocations, freeCalls]
      · exact ⟨⟨hd, hm, ho, ha⟩, by simpa using hled⟩
    · rw [if_neg hnf] at hal
      cases hall : drv.allocateMemory req
          (findMemoryType drv.memoryTypes w.arena.propertyFlags_) with
      | none =>
        rw [hall] at hal
        have hkept : (drv.failedAllocationWrites req
            (findMemoryType drv.memoryTypes w.arena.propertyFlags_)).getD w.arena.memory_
            = w.arena.memory_ := by
          cases hw : drv.failedAllocationWrites req
              (findMemoryType drv.memoryTypes w.arena.propertyFlags_) with
          | none => rfl
          | some value =>
            have := hfail _ _ _ hw
            simp [this, hfree]
        refine ⟨⟨w.arena, w.allocations + 0, w.frees + 0⟩, ?_, ?_⟩
        · simp [step, hal, successfulAllocations, freeCalls, hall, hkept]
        · exact ⟨⟨hd, hm, ho, ha⟩, by simpa using hled⟩
      | some handle =>
        rw [hall] at hal
        have hnn : handle ≠ VK_NULL_HANDLE := hvalid _ _ _ hall
        obtain ⟨hc1, hc2⟩ := bindLoop_calls_counts drv drv handle 0 w.arena.memObjects_ offsets
        refine ⟨⟨{ w.arena with
                   memory_ := handle,
                   memObjects_ := (bindLoop drv handle 0 w.arena.memObjects_ offsets).2.1 },
                 w.allocations + 1, w.frees + 0⟩, ?_, ?_⟩
        · simp only [step, hal]
          have hs : successfulAllocations drv
              ([Call.getMemoryProperties,
                Call.allocateMemory req
                  (findMemoryType drv.memoryTypes w.arena.propertyFlags_)]
                ++ (bindLoop drv handle 0 w.arena.memObjects_ offsets).2.2) = 1 := by
            simp [successfulAllocations, hall, hc1]
          have hf : freeCalls
              ([Call.getMemoryProperties,
                Call.allocateMemory req
                  (findMemoryType drv.memoryTypes w.arena.propertyFlags_)]
                ++ (bindLoop drv handle 0 w.arena.memObjects_ offsets).2.2) = 0 := by
            simp [freeCalls, hc2]
          rw [hs, hf]
        · refine ⟨⟨hd, fun _ => by simp [hdv], fun _ => by simp [hdv],
            bindLoop_aligns drv handle 0 w.arena.memObjects_ offsets ha⟩, ?_⟩
          simp only [hnn, if_false]
          omega

theorem run_consistent (ops : List Op) (w : Ledger) (hinv : w.Consistent)
    (hdrv : driversValid ops) (hguard : allocateOnlyWhenReleased w ops = true) :
    ∃ final, run w ops = some final ∧ final.Consistent := by
  induction ops generalizing w with
  | nil => exact ⟨w, rfl, hinv⟩
  | cons op ops ih =>
    simp only [allocateOnlyWhenReleased, Bool.and_eq_true] at hguard
    obtain ⟨hg1, hg2⟩ := hguard
    have hstep : ∃ w1, step w op = some w1 ∧ w1.Consistent ∧ driversValid ops := by
      cases op with
      | init device properties =>
        obtain ⟨w1, h1, h2⟩ := step_init_consistent w device properties hinv
        exact ⟨w1, h1, h2, hdrv⟩
      | allocate drv =>
        obtain ⟨w1, h1, h2⟩ :=
          step_allocate_consistent w drv hinv hdrv.1.1 hdrv.1.2 (by simpa using hg1)
        exact ⟨w1, h1, h2, hdrv.2⟩
      | release =>
        obtain ⟨w1, h1, h2⟩ := step_release_consistent w hinv
        exact ⟨w1, h1, h2, hdrv⟩
      | clear =>
        obtain ⟨w1, h1, h2⟩ := step_clear_consistent w hinv
        exact ⟨w1, h1, h2, hdrv⟩
    obtain ⟨w1, h1, h2, h3⟩ := hstep
    rw [h1] at hg2
    obtain ⟨final, hf1, hf2⟩ := ih w1 h2 h3 hg2
    exact ⟨final, by simp only [run, h1, hf1], hf2⟩

theorem driverOk_handlesValid : driverOk.handlesValid := by
  intro size index handle h
  simp only [driverOk, Option.some.injEq] at h
  subst h
  decide

theorem driverOk_failureLeavesNull : driverOk.failureLeavesNull := by
  intro size index value h
  simp [driverOk] at h

theorem arenaOf_consistent (objs : List MemObject) (halign : ∀ o ∈ objs, 0 < o.memAlign_) :
    (Ledger.mk (arenaOf objs) 0 0).Consistent :=
  ⟨⟨fun _ => rfl, fun h => absurd rfl h, fun _ => by simp [arenaOf], halign⟩, by simp [arenaOf]⟩

/-- C20 (counterexample): on an initialised arena with one registered resource and no
allocation yet, whose counts start at zero, two `allocate` calls in a row both succeed: two
successful `vkAllocateMemory` calls and no `vkFreeMemory` call, so two allocations are live
while the arena holds a single handle. And on the same arena one `allocate` call whose
`vkAllocateMemory` fails after writing a non-null value through `&memory_` leaves the arena
with a non-null handle and no live allocation. -/
theorem second_allocate_leaks_first_allocation :
    (Ledger.mk (arenaOf [⟨16, 16, 0, 0⟩]) 0 0).Consistent ∧
    driversValid [Op.allocate driverOk, Op.allocate driverOk] ∧
    (∃ final,
      run ⟨arenaOf [⟨16, 16, 0, 0⟩], 0, 0⟩ [Op.allocate driverOk, Op.allocate driverOk]
        = some final ∧
      final.allocations = 2 ∧ final.frees = 0 ∧
      ¬ (final.allocations ≤ final.frees + 1)) ∧
    allocateOnlyWhenReleased ⟨arenaOf [⟨16, 16, 0, 0⟩], 0, 0⟩
      [Op.allocate driverAllocFailsWrites] = true ∧
    (∃ final,
      run ⟨arenaOf [⟨16, 16, 0, 0⟩], 0, 0⟩ [Op.allocate driverAllocFailsWrites]
        = some final ∧
      final.allocations = 0 ∧ final.frees = 0 ∧
      final.arena.memory_ ≠ VK_NULL_HANDLE ∧
      ¬ (final.allocations = final.frees + 1 ↔ final.arena.memory_ ≠ VK_NULL_HANDLE)) :=
  ⟨arenaOf_consistent _ (by decide),
    ⟨⟨driverOk_handlesValid, driverOk_failureLeavesNull⟩,
      ⟨driverOk_handlesValid, driverOk_failureLeavesNull⟩, trivial⟩,
    ⟨⟨⟨some 0, 0, 1, 7, [⟨16, 16, 0, 0⟩], true⟩, 2, 0⟩, by decide, rfl, rfl, by decide⟩,
    by decide,
    ⟨⟨⟨some 0, 0, 1, 9, [⟨16, 16, 0, 0⟩], true⟩, 0, 0⟩, by decide, rfl, rfl, by decide,
      by decide⟩⟩

/-- C20 (amended): take an arena that is in the cleared state or initialised with its device
set, whose registered resources have non-zero alignments, and counts of successful
`vkAllocateMemory` calls and of `vkFreeMemory` calls that differ by one if the arena holds a
handle and by nothing if it holds none. Every sequence of `init`, `allocate`, `release` and
`clear` calls on it in which `allocate` is called only while the arena's handle is null, with
drivers that return a non-null handle on success and write nothing or null through
`&memory_` on failure, runs to the end, and afterwards the successful allocation calls exceed
the free calls by at most one, and by exactly one precisely when the arena's handle is
non-null. -/
theorem guarded_sequence_owns_at_most_one_allocation (w : Ledger) (ops : List Op)
    (hstate : w.arena = ⟨none, 0, 0, VK_NULL_HANDLE, [], false⟩ ∨
      (w.arena.initialized_ = true ∧ w.arena.device_ ≠ none))
    (halign : ∀ o ∈ w.arena.memObjects_, 0 < o.memAlign_)
    (hcount : w.allocations
      = w.frees + (if w.arena.memory_ = VK_NULL_HANDLE then 0 else 1))
    (hdrv : driversValid ops)
    (hguard : allocateOnlyWhenReleased w ops = true) :
    ∃ final, run w ops = some final ∧
      final.frees ≤ final.allocations ∧
      final.allocations ≤ final.frees + 1 ∧
      (final.allocations = final.frees + 1 ↔ final.arena.memory_ ≠ VK_NULL_HANDLE) := by
  have hinv : w.Consistent := by
    refine ⟨?_, hcount⟩
    rcases hstate with hcleared | ⟨hinit, hdev⟩
    · rw [hcleared]
      exact ⟨fun h => absurd rfl h, fun h => absurd rfl h, fun h => absurd rfl h, by simp⟩
    · exact ⟨fun _ => hinit, fun _ => hdev, fun _ => hdev, halign⟩
  obtain ⟨final, hrun, _, hled⟩ := run_consistent ops w hinv hdrv hguard
  refine ⟨final, hrun, ?_, ?_, ?_⟩
  · omega
  · split at hled <;> omega
  · by_cases hmem : final.arena.memory_ = VK_NULL_HANDLE
    · simp only [hmem, if_true] at hled
      simp only [hmem, ne_eq, not_true_eq_false, iff_false]
      omega
    · simp only [hmem, if_false] at hled
      simp only [hmem, ne_eq, not_false_eq_true, iff_true]
      omega

/-- Witness of the amended C20: allocate, release, an allocate whose `vkAllocateMemory`
fails, allocate again, clear, on the resources `{256, 256}`, `{37, 64}`; two allocations and
two frees are counted and the handle ends null. -/
theorem guarded_sequence_owns_at_most_one_allocation_witness :
    run ⟨arenaOf sceneA, 0, 0⟩
      [Op.allocate driverOk, Op.release, Op.allocate driverAllocFails,
        Op.allocate driverOk, Op.clear]
      = some ⟨⟨none, 0, 0, VK_NULL_HANDLE, [], false⟩, 2, 2⟩ ∧
    ∃ final,
      run ⟨arenaOf sceneA, 0, 0⟩
        [Op.allocate driverOk, Op.release, Op.allocate driverAllocFails,
          Op.allocate driverOk, Op.clear] = some final ∧
      final.frees ≤ final.allocations ∧
      final.allocations ≤ final.frees + 1 ∧
      (final.allocations = final.frees + 1 ↔ final.arena.memory_ ≠ VK_NULL_HANDLE) :=
  ⟨by decide,
    guarded_sequence_owns_at_most_one_allocation ⟨arenaOf sceneA, 0, 0⟩
      [Op.allocate driverOk, Op.release, Op.allocate driverAllocFails,
        Op.allocate driverOk, Op.clear]
      (Or.inr ⟨rfl, by decide⟩) (by decide) (by decide)
      ⟨⟨driverOk_handlesValid, driverOk_failureLeavesNull⟩,
        ⟨⟨by intro size index handle h; simp [driverAllocFails] at h,
          by intro size index value h; simp [driverAllocFails] at h⟩,
        ⟨driverOk_handlesValid, driverOk_failureLeavesNull⟩, trivial⟩⟩
      (by decide)⟩

/-! ## Memory move assignment and the choice of the memory type -/

/-- C21: move-assigning the arena `src` to a distinct arena `dst` (whose device is set if it
holds an allocation) leaves `dst` with every member `src` had before (device, property mask,
handle, allocated size, resource list, initialized flag) and `src` in the cleared state; the
allocation `dst` held before, if any, is freed by exactly one `vkFreeMemory` call, and no
other call is made. -/
theorem moveAssign_transfers_arena (dst src : Memory)
    (hdev : dst.memory_ ≠ VK_NULL_HANDLE → dst.device_ ≠ none) :
    ∃ calls,
      Memory.moveAssign dst src
        = some (src, ⟨none, 0, 0, VK_NULL_HANDLE, [], false⟩, calls) ∧
      (dst.memory_ ≠ VK_NULL_HANDLE → calls = [Call.freeMemory dst.memory_]) ∧
      (dst.memory_ = VK_NULL_HANDLE → calls = []) := by
  by_cases hmem : dst.memory_ = VK_NULL_HANDLE
  · refine ⟨[], ?_, fun h => absurd hmem h, fun _ => rfl⟩
    simp [Memory.moveAssign, clear, release_of_null dst hmem]
  · obtain ⟨device, hd⟩ := Option.ne_none_iff_exists'.1 (hdev hmem)
    refine ⟨[Call.freeMemory dst.memory_], ?_, fun _ => rfl, fun h => absurd h hmem⟩
    simp [Memory.moveAssign, clear, release_of_handle dst device hmem hd]

/-- Witness of C21: an arena holding the handle `7` receives a fresh arena with the
resources `{10, 16}`, `{10, 4}`. -/
theorem moveAssign_transfers_arena_witness :
    ∃ calls,
      Memory.moveAssign arenaAllocated (arenaOf sceneB)
        = some (arenaOf sceneB, ⟨none, 0, 0, VK_NULL_HANDLE, [], false⟩, calls) ∧
      (arenaAllocated.memory_ ≠ VK_NULL_HANDLE →
        calls = [Call.freeMemory arenaAllocated.memory_]) ∧
      (arenaAllocated.memory_ = VK_NULL_HANDLE → calls = []) :=
  moveAssign_transfers_arena arenaAllocated (arenaOf sceneB) (by decide)

/-- C24: the memory type index `Memory::allocate` uses depends only on the property mask and
the memory-type table. Two arenas with the same mask, on drivers with the same table, whose
registered resources (sizes, alignments, `memTypeBits_`) are arbitrary, either both stop at
the memory-properties query with no index found, or both call `vkAllocateMemory` with the
same index `findMemoryType table mask`. -/
theorem allocate_index_ignores_resources (drv1 drv2 : Driver) (m1 m2 : Memory)
    (offsets1 offsets2 : List Nat) (requiredSize1 requiredSize2 device1 device2 : Nat)
    (hlay1 : computeLayout m1.memObjects_ = some (offsets1, requiredSize1))
    (hlay2 : computeLayout m2.memObjects_ = some (offsets2, requiredSize2))
    (hdev1 : m1.device_ = some device1) (hdev2 : m2.device_ = some device2)
    (htable : drv1.memoryTypes = drv2.memoryTypes)
    (hmask : m1.propertyFlags_ = m2.propertyFlags_) :
    ∃ r1 r2, allocate drv1 m1 = some r1 ∧ allocate drv2 m2 = some r2 ∧
      ((findMemoryType drv1.memoryTypes m1.propertyFlags_ = NOT_FOUND ∧
          r1.2.2 = [Call.getMemoryProperties] ∧ r2.2.2 = [Call.getMemoryProperties]) ∨
       (findMemoryType drv1.memoryTypes m1.propertyFlags_ ≠ NOT_FOUND ∧
          r1.2.2.take 2 = [Call.getMemoryProperties,
            Call.allocateMemory requiredSize1
              (findMemoryType drv1.memoryTypes m1.propertyFlags_)] ∧
          r2.2.2.take 2 = [Call.getMemoryProperties,
            Call.allocateMemory requiredSize2
              (findMemoryType drv1.memoryTypes m1.propertyFlags_)])) := by
  rw [allocate_of_layout drv1 m1 offsets1 requiredSize1 device1 hlay1 hdev1,
    allocate_of_layout drv2 m2 offsets2 requiredSize2 device2 hlay2 hdev2,
    ← htable, ← hmask]
  by_cases hnf : findMemoryType drv1.memoryTypes m1.propertyFlags_ = NOT_FOUND
  · rw [if_pos hnf, if_pos hnf]
    exact ⟨_, _, rfl, rfl, Or.inl ⟨hnf, rfl, rfl⟩⟩
  · rw [if_neg hnf, if_neg hnf]
    cases drv1.allocateMemory requiredSize1
        (findMemoryType drv1.memoryTypes m1.propertyFlags_) <;>
      cases drv2.allocateMemory requiredSize2
        (findMemoryType drv1.memoryTypes m1.propertyFlags_) <;>
      exact ⟨_, _, rfl, rfl, Or.inr ⟨hnf, by simp, by simp⟩⟩

/-- Witness of C24: the resources `sceneA` (allowed-memory-type mask `0`) and `sceneC`
(masks `0xFF`, `2`, `1`) with the property mask `1`, on two drivers with the table `[1]`. -/
theorem allocate_index_ignores_resources_witness :
    ∃ r1 r2, allocate driverOk (arenaOf sceneA) = some r1 ∧
      allocate driverBindFails (arenaOf sceneC) = some r2 ∧
      ((findMemoryType driverOk.memoryTypes (arenaOf sceneA).propertyFlags_ = NOT_FOUND ∧
          r1.2.2 = [Call.getMemoryProperties] ∧ r2.2.2 = [Call.getMemoryProperties]) ∨
       (findMemoryType driverOk.memoryTypes (arenaOf sceneA).propertyFlags_ ≠ NOT_FOUND ∧
          r1.2.2.take 2 = [Call.getMemoryProperties,
            Call.allocateMemory 330
              (findMemoryType driverOk.memoryTypes (arenaOf sceneA).propertyFlags_)] ∧
          r2.2.2.take 2 = [Call.getMemoryProperties,
            Call.allocateMemory 174
              (findMemoryType driverOk.memoryTypes (arenaOf sceneA).propertyFlags_)])) :=
  allocate_index_ignores_resources driverOk driverBindFails (arenaOf sceneA) (arenaOf sceneC)
    [0, 256] [0, 64, 164] 330 174 0 0
    (by decide) (by decide) (by decide) (by decide) (by decide) (by decide)

/-! ## AccelerationStructureTriangleData -/

theorem logicalNot_land_bit (x : Nat) :
    logicalNot x &&& VK_BUFFER_USAGE_ACCELERATION_STRUCTURE_BUILD_INPUT_READ_ONLY_BIT_KHR = 0 := by
  unfold logicalNot
  split <;> decide

/-- The buffer-based constructor never throws, whatever the usage flags: `!usage` is `0` or
`1`, and neither has the bit `0x00080000`. -/
theorem triangleDataFromBuffers_never_throws (vertexUsage indexUsage transformUsage : Nat) :
    triangleDataFromBuffers vertexUsage indexUsage transformUsage
      = Construction.constructed := by
  simp [triangleDataFromBuffers, logicalNot_land_bit]

/-- C25 (evaluation at the failing input): with three buffers whose usage is `0x20`
(storage buffer), none of which has the bit `0x00080000`, the buffer-based constructor of
`AccelerationStructureTriangleData` does not throw. -/
theorem triangleDataFromBuffers_accepts_wrong_usage :
    (0x20 &&& VK_BUFFER_USAGE_ACCELERATION_STRUCTURE_BUILD_INPUT_READ_ONLY_BIT_KHR = 0) ∧
    triangleDataFromBuffers 0x20 0x20 0x20 = Construction.constructed := by
  decide

/-! ## divUp -/

/-- C28: for `val > 0` and `n + val - 1 < 2 ^ 32`, `divUp n val` is the ceiling of
`n / val`: the least `k` with `k * val ≥ n`; and `divUp 0 val` is `0`. -/
theorem divUp_is_ceiling (n val : Nat) (hval : 0 < val) (hfit : n + val - 1 < UINT32_MOD) :
    ∃ k, divUp n val = some k ∧ n ≤ k * val ∧ (∀ j, n ≤ j * val → k ≤ j) ∧
      divUp 0 val = some 0 := by
  have hne : val ≠ 0 := by omega
  have hM : UINT32_MOD = 4294967296 := by decide
  have hwrap : ∀ a : Nat, 0 < a → a - 1 < UINT32_MOD →
      ((a % UINT32_MOD + UINT32_MOD - 1) % UINT32_MOD) = a - 1 := by
    intro a ha hlt
    rw [hM] at hlt ⊢
    omega
  have h0 : divUp 0 val = some 0 := by
    have hw := hwrap (0 + val) (by omega) (by omega)
    simp only [divUp, hne, if_false, hw, Option.some.injEq]
    apply Nat.div_eq_of_lt
    omega
  have hw := hwrap (n + val) (by omega) hfit
  refine ⟨(n + val - 1) / val, by simp only [divUp, hne, if_false, hw], ?_, ?_, h0⟩
  · have hdm := Nat.div_add_mod (n + val - 1) val
    have hlt := Nat.mod_lt (n + val - 1) hval
    rw [Nat.mul_comm]
    omega
  · intro j hj
    have hlt : (n + val - 1) / val < j + 1 := by
      rw [Nat.div_lt_iff_lt_mul hval]
      have : (j + 1) * val = j * val + val := by ring
      omega
    omega

/-- Witness of C28: `divUp 1081 16 = 68`, the least `k` with `16 * k ≥ 1081`. -/
theorem divUp_is_ceiling_witness :
    divUp 1081 16 = some 68 ∧
    ∃ k, divUp 1081 16 = some k ∧ 1081 ≤ k * 16 ∧ (∀ j, 1081 ≤ j * 16 → k ≤ j) ∧
      divUp 0 16 = some 0 :=
  ⟨by decide, divUp_is_ceiling 1081 16 (by decide) (by decide)⟩

/-! ## Device: queues and move assignment -/

theorem getQueuesLoop_eq_filter (requiredFlags : Nat) (ret queues : List Queue) :
    getQueuesLoop requiredFlags ret queues
      = ret ++ queues.filter (fun q => decide (q.flags_ &&& requiredFlags = requiredFlags)) := by
  induction queues generalizing ret with
  | nil => simp [getQueuesLoop]
  | cons queue rest ih =>
    by_cases hq : queue.flags_ &&& requiredFlags = requiredFlags
    · simp [getQueuesLoop, hq, ih]
    · simp [getQueuesLoop, hq, ih]

/-- After a move assignment the receiving device has no queue, whatever the two devices
were: `clear()` empties `deviceQueues_` and the assignment does not swap it. -/
theorem moveAssign_getQueues_nil (dst src : Device) (requiredFlags : Nat) :
    (Device.moveAssign dst src).1.getQueues requiredFlags = [] := by
  simp [Device.moveAssign, Device.clear, Device.getQueues, getQueuesLoop]

/-- C22 (evaluation at the failing input): a device with two queues is move-assigned to a
default-constructed device. Before the move `src.getQueues(0)` returns the two queues; after
it `dst.getQueues(0)` returns none, although `dst` has received the device handle, and the
queues are still in `src`. -/
theorem moveAssign_loses_queues :
    deviceWithQueues.getQueues 0 = [⟨3, 0, 0, 21⟩, ⟨4, 1, 0, 22⟩] ∧
    (Device.moveAssign deviceEmpty deviceWithQueues).1.getQueues 0 = [] ∧
    (Device.moveAssign deviceEmpty deviceWithQueues).1.device_ = 12 ∧
    (Device.moveAssign deviceEmpty deviceWithQueues).2.1.deviceQueues_
      = [⟨3, 0, 0, 21⟩, ⟨4, 1, 0, 22⟩] := by
  decide

/-- C23: `Device::getQueues(f)` returns the queues of `deviceQueues_` whose flags contain
every bit of `f`, each as often as it occurs there and in the original order; a queue
lacking a requested bit is never returned, and `getQueues(0)` returns all queues. -/
theorem getQueues_filters (d : Device) (requiredFlags : Nat) :
    d.getQueues requiredFlags
      = d.deviceQueues_.filter (fun q => decide (q.flags_ &&& requiredFlags = requiredFlags)) ∧
    (d.getQueues requiredFlags).Sublist d.deviceQueues_ ∧
    (∀ q, q ∈ d.getQueues requiredFlags ↔
      q ∈ d.deviceQueues_ ∧ q.flags_ &&& requiredFlags = requiredFlags) ∧
    d.getQueues 0 = d.deviceQueues_ := by
  have h : ∀ f, d.getQueues f
      = d.deviceQueues_.filter (fun q => decide (q.flags_ &&& f = f)) := by
    intro f
    simp [Device.getQueues, getQueuesLoop_eq_filter]
  refine ⟨h requiredFlags, ?_, ?_, ?_⟩
  · rw [h]; exact List.filter_sublist _
  · intro q
    rw [h]
    simp [List.mem_filter]
  · rw [h]
    simp

/-! ## Device::getPhysicalDevice -/

theorem checkFeaturesCompatibility_iff (required available : List Nat) :
    checkFeaturesCompatibility required available = true ↔
      ∀ i : Nat, ¬ (required[i]? = some VK_TRUE ∧ available[i]? = some VK_FALSE) := by
  induction required generalizing available with
  | nil => simp [checkFeaturesCompatibility]
  | cons r rs ih =>
    cases available with
    | nil => simp [checkFeaturesCompatibility]
    | cons a as =>
      by_cases hra : r = VK_TRUE ∧ a = VK_FALSE
      · simp only [checkFeaturesCompatibility, hra, and_self, if_true]
        constructor
        · intro h; cases h
        · intro h
          exact absurd (by simp [hra.1, hra.2]) (h 0)
      · simp only [checkFeaturesCompatibility, hra, if_false]
        rw [ih as]
        constructor
        · intro h i
          cases i with
          | zero =>
            simp only [List.getElem?_cons_zero, Option.some.injEq]
            exact hra
          | succ i => simpa using h i
        · intro h i
          simpa using h (i + 1)

theorem findCompatibleDevice_eq_none_iff (requiredFeatures : List Nat) (deviceType : Nat)
    (devices : List PhysicalDevice) :
    findCompatibleDevice requiredFeatures deviceType devices = none ↔
      ∀ pd ∈ devices, ¬ (pd.deviceType = deviceType
        ∧ checkFeaturesCompatibility requiredFeatures pd.features = true) := by
  induction devices with
  | nil => simp [findCompatibleDevice]
  | cons pd rest ih =>
    by_cases hp : pd.deviceType = deviceType
        ∧ checkFeaturesCompatibility requiredFeatures pd.features = true
    · simp only [findCompatibleDevice, hp, and_self, if_true]
      constructor
      · intro h; cases h
      · intro h
        exact absurd hp (h pd (by simp))
    · simp only [findCompatibleDevice, hp, if_false, ih, List.mem_cons]
      constructor
      · rintro h q (hq | hq)
        · rw [hq]; exact hp
        · exact h q hq
      · intro h q hq
        exact h q (Or.inr hq)

theorem findCompatibleDevice_some_spec (requiredFeatures : List Nat) (deviceType : Nat)
    (devices : List PhysicalDevice) (pd : PhysicalDevice)
    (h : findCompatibleDevice requiredFeatures deviceType devices = some pd) :
    ∃ i : Nat, devices[i]? = some pd ∧ pd.deviceType = deviceType ∧
      checkFeaturesCompatibility requiredFeatures pd.features = true ∧
      ∀ j : Nat, j < i → ∀ q : PhysicalDevice, devices[j]? = some q →
        ¬ (q.deviceType = deviceType
          ∧ checkFeaturesCompatibility requiredFeatures q.features = true) := by
  induction devices with
  | nil => simp [findCompatibleDevice] at h
  | cons first rest ih =>
    by_cases hp : first.deviceType = deviceType
        ∧ checkFeaturesCompatibility requiredFeatures first.features = true
    · simp only [findCompatibleDevice, hp, and_self, if_true, Option.some.injEq] at h
      subst h
      exact ⟨0, by simp, hp.1, hp.2, by intro j hj; omega⟩
    · simp only [findCompatibleDevice, hp, if_false] at h
      obtain ⟨i, hi, ht, hc, hleast⟩ := ih h
      refine ⟨i + 1, by simpa using hi, ht, hc, ?_⟩
      intro j hj q hq
      cases j with
      | zero =>
        simp only [List.getElem?_cons_zero, Option.some.injEq] at hq
        rw [← hq]; exact hp
      | succ j =>
        rw [List.getElem?_cons_succ] at hq
        exact hleast j (by omega) q hq

theorem selectPhysicalDevice_eq_none_iff (requiredFeatures : List Nat)
    (devices : List PhysicalDevice) (requiredTypes : List Nat) :
    selectPhysicalDevice requiredFeatures devices requiredTypes = none ↔
      ∀ t ∈ requiredTypes, findCompatibleDevice requiredFeatures t devices = none := by
  induction requiredTypes with
  | nil => simp [selectPhysicalDevice]
  | cons t rest ih =>
    cases hf : findCompatibleDevice requiredFeatures t devices with
    | none => simp [selectPhysicalDevice, hf, ih]
    | some pd => simp [selectPhysicalDevice, hf]

theorem selectPhysicalDevice_some_spec (requiredFeatures : List Nat)
    (devices : List PhysicalDevice) (requiredTypes : List Nat) (pd : PhysicalDevice)
    (h : selectPhysicalDevice requiredFeatures devices requiredTypes = some pd) :
    ∃ (k : Nat) (t : Nat), requiredTypes[k]? = some t ∧
      findCompatibleDevice requiredFeatures t devices = some pd ∧
      ∀ j : Nat, j < k → ∀ u : Nat, requiredTypes[j]? = some u →
        findCompatibleDevice requiredFeatures u devices = none := by
  induction requiredTypes with
  | nil => simp [selectPhysicalDevice] at h
  | cons t rest ih =>
    cases hf : findCompatibleDevice requiredFeatures t devices with
    | some q =>
      simp only [selectPhysicalDevice, hf, Option.some.injEq] at h
      subst h
      exact ⟨0, t, by simp, hf, by intro j hj; omega⟩
    | none =>
      simp only [selectPhysicalDevice, hf] at h
      obtain ⟨k, u, hk, hu, hleast⟩ := ih h
      refine ⟨k + 1, u, by simpa using hk, hu, ?_⟩
      intro j hj v hv
      cases j with
      | zero =>
        simp only [List.getElem?_cons_zero, Option.some.injEq] at hv
        rw [← hv]; exact hf
      | succ j =>
        rw [List.getElem?_cons_succ] at hv
        exact hleast j (by omega) v hv

/-- C27: `Device::getPhysicalDevice` (instance set) returns `false`, leaving the device as it
was, exactly when no enumerated physical device has a type listed in `requiredTypes` together
with compatible features. Otherwise it returns `true` and stores the physical device `pd`
that is the first enumerated one with compatible features and type `t`, `t` being the
earliest entry of `requiredTypes` for which such a device exists. Features are compatible
exactly when no member is `VK_TRUE` in the requirement and `VK_FALSE` on the device. -/
theorem getPhysicalDevice_selects_by_type_priority (d : Device) (requiredFeatures : List Nat)
    (requiredTypes : List Nat) (physicalDevices : List PhysicalDevice)
    (hinst : d.instance_ ≠ none) :
    ∃ r, d.getPhysicalDevice requiredFeatures requiredTypes physicalDevices = some r ∧
      (r.1 = false ↔ ∀ pd ∈ physicalDevices,
        ¬ (pd.deviceType ∈ requiredTypes
          ∧ checkFeaturesCompatibility requiredFeatures pd.features = true)) ∧
      (r.1 = false → r.2 = d) ∧
      (r.1 = true → ∃ (k t i : Nat) (pd : PhysicalDevice),
        requiredTypes[k]? = some t ∧ physicalDevices[i]? = some pd ∧
        pd.deviceType = t ∧
        checkFeaturesCompatibility requiredFeatures pd.features = true ∧
        (∀ j : Nat, j < k → ∀ u : Nat, requiredTypes[j]? = some u →
          ∀ q ∈ physicalDevices, ¬ (q.deviceType = u
            ∧ checkFeaturesCompatibility requiredFeatures q.features = true)) ∧
        (∀ j : Nat, j < i → ∀ q : PhysicalDevice, physicalDevices[j]? = some q →
          ¬ (q.deviceType = t
            ∧ checkFeaturesCompatibility requiredFeatures q.features = true)) ∧
        r.2.physicalDevice_ = pd.handle ∧ r.2.deviceFeatures_ = pd.features ∧
        r.2.deviceProperties_ = pd.deviceType) ∧
      (∀ available : List Nat,
        checkFeaturesCompatibility requiredFeatures available = true ↔
          ∀ i : Nat, ¬ (requiredFeatures[i]? = some VK_TRUE
            ∧ available[i]? = some VK_FALSE)) := by
  obtain ⟨inst, hi⟩ := Option.ne_none_iff_exists'.1 hinst
  have hnone : selectPhysicalDevice requiredFeatures physicalDevices requiredTypes = none ↔
      ∀ pd ∈ physicalDevices, ¬ (pd.deviceType ∈ requiredTypes
        ∧ checkFeaturesCompatibility requiredFeatures pd.features = true) := by
    rw [selectPhysicalDevice_eq_none_iff]
    constructor
    · intro h pd hpd hc
      exact (findCompatibleDevice_eq_none_iff _ _ _).1 (h _ hc.1) pd hpd ⟨rfl, hc.2⟩
    · intro h t ht
      rw [findCompatibleDevice_eq_none_iff]
      intro pd hpd hc
      exact h pd hpd ⟨hc.1 ▸ ht, hc.2⟩
  by_cases hlen : physicalDevices.length = 0
  · have hnil : physicalDevices = [] := List.length_eq_zero.1 hlen
    refine ⟨(false, d), by simp [Device.getPhysicalDevice, hi, hlen], ?_, fun _ => rfl,
      (fun h => by simp at h), checkFeaturesCompatibility_iff requiredFeatures⟩
    simp [hnil]
  · cases hsel : selectPhysicalDevice requiredFeatures physicalDevices requiredTypes with
    | none =>
      refine ⟨(false, d), by simp [Device.getPhysicalDevice, hi, hlen, hsel], ?_,
        fun _ => rfl, (fun h => by simp at h), checkFeaturesCompatibility_iff requiredFeatures⟩
      simpa using hnone.1 hsel
    | some pd =>
      obtain ⟨k, t, hk, hfind, hearlier⟩ :=
        selectPhysicalDevice_some_spec requiredFeatures physicalDevices requiredTypes pd hsel
      obtain ⟨i, hidx, htype, hcompat, hfirst⟩ :=
        findCompatibleDevice_some_spec requiredFeatures t physicalDevices pd hfind
      refine ⟨(true, { d with
                       deviceFeatures_ := pd.features,
                       deviceProperties_ := pd.deviceType,
                       physicalDevice_ := pd.handle }),
        by simp [Device.getPhysicalDevice, hi, hlen, hsel], ?_, (fun h => by simp at h), ?_,
        checkFeaturesCompatibility_iff requiredFeatures⟩
      · constructor
        · intro h; simp at h
        · intro h
          have := hnone.2 h
          rw [hsel] at this
          cases this
      · intro _
        refine ⟨k, t, i, pd, hk, hidx, htype, hcompat, ?_, hfirst, rfl, rfl, rfl⟩
        intro j hj u hu
        exact (findCompatibleDevice_eq_none_iff _ _ _).1 (hearlier j hj u hu)

/-- Witness of C27: an integrated GPU is enumerated before a discrete one, both compatible;
with `requiredTypes` = discrete, integrated, the discrete GPU is chosen. -/
theorem getPhysicalDevice_selects_by_type_priority_witness :
    deviceWithInstance.getPhysicalDevice [1, 0] [2, 1] [gpuIntegrated, gpuDiscrete]
      = some (true, { deviceWithInstance with
                      deviceFeatures_ := [1, 0], deviceProperties_ := 2,
                      physicalDevice_ := 32 }) ∧
    ∃ r, deviceWithInstance.getPhysicalDevice [1, 0] [2, 1] [gpuIntegrated, gpuDiscrete]
        = some r ∧
      (r.1 = false ↔ ∀ pd ∈ [gpuIntegrated, gpuDiscrete],
        ¬ (pd.deviceType ∈ [2, 1] ∧ checkFeaturesCompatibility [1, 0] pd.features = true)) ∧
      (r.1 = false → r.2 = deviceWithInstance) ∧
      (r.1 = true → ∃ (k t i : Nat) (pd : PhysicalDevice),
        [2, 1][k]? = some t ∧ [gpuIntegrated, gpuDiscrete][i]? = some pd ∧
        pd.deviceType = t ∧
        checkFeaturesCompatibility [1, 0] pd.features = true ∧
        (∀ j : Nat, j < k → ∀ u : Nat, [2, 1][j]? = some u →
          ∀ q ∈ [gpuIntegrated, gpuDiscrete], ¬ (q.deviceType = u
            ∧ checkFeaturesCompatibility [1, 0] q.features = true)) ∧
        (∀ j : Nat, j < i → ∀ q : PhysicalDevice,
          [gpuIntegrated, gpuDiscrete][j]? = some q →
          ¬ (q.deviceType = t ∧ checkFeaturesCompatibility [1, 0] q.features = true)) ∧
        r.2.physicalDevice_ = pd.handle ∧ r.2.deviceFeatures_ = pd.features ∧
        r.2.deviceProperties_ = pd.deviceType) ∧
      (∀ available : List Nat,
        checkFeaturesCompatibility [1, 0] available = true ↔
          ∀ i : Nat, ¬ (([1, 0] : List Nat)[i]? = some VK_TRUE
            ∧ available[i]? = some VK_FALSE)) :=
  ⟨by decide,
    getPhysicalDevice_selects_by_type_priority deviceWithInstance [1, 0] [2, 1]
      [gpuIntegrated, gpuDiscrete] (by decide)⟩

/-! ## GraphicsPipeline: specialization constants -/

theorem addSpec_apply (moduleInfo : Nat → ShaderModuleInfo) (stage : Nat) (value : List Nat)
    (id : Nat) :
    addSpec moduleInfo stage value id
      = if getStageIndex stage = (id : Int) then
          { specData := (moduleInfo id).specData ++ value,
            specSizes := (moduleInfo id).specSizes ++ [value.length] }
        else moduleInfo id := by
  simp only [addSpec]
  by_cases hge : getStageIndex stage ≥ 0
  · rw [if_pos hge]
    by_cases heq : getStageIndex stage = (id : Int)
    · have hid : id = (getStageIndex stage).toNat := by omega
      rw [if_pos heq]
      exact if_pos hid
    · have hid : ¬ id = (getStageIndex stage).toNat := by omega
      rw [if_neg heq]
      exact if_neg hid
  · have heq : ¬ getStageIndex stage = (id : Int) := by omega
    rw [if_neg hge, if_neg heq]

theorem addSpecs_apply (calls : List (Nat × List Nat)) (moduleInfo : Nat → ShaderModuleInfo)
    (id : Nat) :
    (addSpecs moduleInfo calls id).specSizes
      = (moduleInfo id).specSizes ++ (valuesOfStage id calls).map List.length ∧
    (addSpecs moduleInfo calls id).specData.length
      = (moduleInfo id).specData.length + ((valuesOfStage id calls).map List.length).sum := by
  induction calls generalizing moduleInfo with
  | nil => simp [addSpecs, valuesOfStage]
  | cons call rest ih =>
    obtain ⟨h1, h2⟩ := ih (addSpec moduleInfo call.1 call.2)
    simp only [addSpecs, h1, h2, addSpec_apply]
    by_cases heq : getStageIndex call.1 = (id : Int)
    · simp [valuesOfStage, heq, List.filter_cons, Nat.add_assoc]
    · simp [valuesOfStage, heq, List.filter_cons]

theorem specMapLoop_eq_exact (sizes : List Nat) (i offset : Nat)
    (acc : List SpecializationMapEntry)
    (hcount : i + sizes.length ≤ UINT32_MOD) (hfit : offset + sizes.sum < UINT32_MOD) :
    specMapLoop i offset acc sizes = acc ++ exactSpecMap i offset sizes := by
  induction sizes generalizing i offset acc with
  | nil => simp [specMapLoop, exactSpecMap]
  | cons size rest ih =>
    simp only [List.length_cons, List.sum_cons] at hcount hfit
    have hM : UINT32_MOD < UINT64_MOD := by decide
    have h1 : i % UINT32_MOD = i := Nat.mod_eq_of_lt (by omega)
    have h2 : offset % UINT32_MOD = offset := Nat.mod_eq_of_lt (by omega)
    have h3 : (offset + size) % UINT64_MOD = offset + size := Nat.mod_eq_of_lt (by omega)
    simp only [specMapLoop, h1, h2, h3]
    rw [ih (i + 1) (offset + size) _ (by omega) (by omega)]
    simp [exactSpecMap]

theorem exactSpecMap_length (sizes : List Nat) (i offset : Nat) :
    (exactSpecMap i offset sizes).length = sizes.length := by
  induction sizes generalizing i offset with
  | nil => simp [exactSpecMap]
  | cons size rest ih => simp [exactSpecMap, ih]

theorem exactSpecMap_getElem (sizes : List Nat) (i offset k : Nat)
    (hk : k < (exactSpecMap i offset sizes).length) (hk2 : k < sizes.length) :
    (exactSpecMap i offset sizes)[k] = ⟨i + k, offset + (sizes.take k).sum, sizes[k]⟩ := by
  induction sizes generalizing i offset k with
  | nil => simp at hk2
  | cons size rest ih =>
    cases k with
    | zero => simp [exactSpecMap]
    | succ k =>
      simp only [List.length_cons, Nat.add_lt_add_iff_right] at hk2
      have hk3 : k < (exactSpecMap (i + 1) (offset + size) rest).length := by
        rw [exactSpecMap_length]; exact hk2
      have h := ih (i + 1) (offset + size) k hk3 hk2
      simp only [exactSpecMap, List.getElem_cons_succ, h, List.take_succ_cons, List.sum_cons]
      congr 1 <;> omega

theorem length_le_sum_of_pos (sizes : List Nat) (hpos : ∀ s ∈ sizes, 0 < s) :
    sizes.length ≤ sizes.sum := by
  induction sizes with
  | nil => simp
  | cons size rest ih =>
    have h1 := hpos size (by simp)
    have h2 := ih (fun s hs => hpos s (by simp [hs]))
    simp only [List.length_cons, List.sum_cons]
    omega

theorem sum_take_succ_of_lt (sizes : List Nat) (k : Nat) (hk : k < sizes.length) :
    (sizes.take (k + 1)).sum = (sizes.take k).sum + sizes[k] := by
  induction sizes generalizing k with
  | nil => simp at hk
  | cons size rest ih =>
    cases k with
    | zero => simp
    | succ k =>
      simp only [List.length_cons, Nat.add_lt_add_iff_right] at hk
      simp only [List.take_succ_cons, List.sum_cons, List.getElem_cons_succ, ih k hk]
      omega

/-- C29: after any sequence of `addSpec` calls on a pipeline without constants (each value
having at least one byte), the specialization map `createPipeline` builds for the stage of
index `id` has one entry per constant added to that stage; when the sizes of these constants
total less than `2 ^ 32`, entry `i` has constant id `i`, the size of the `i`-th constant and
the sum of the sizes before it as offset, so each entry starts where the one before it ends
and the last one ends at `specData.size()`. -/
theorem specMap_entries_contiguous (calls : List (Nat × List Nat)) (id : Nat)
    (hbytes : ∀ call ∈ calls, call.2 ≠ [])
    (htotal : ((valuesOfStage id calls).map List.length).sum < UINT32_MOD) :
    (createSpecMap (addSpecs moduleInfoEmpty calls id)).length
      = (valuesOfStage id calls).length ∧
    (addSpecs moduleInfoEmpty calls id).specSizes
      = (valuesOfStage id calls).map List.length ∧
    (addSpecs moduleInfoEmpty calls id).specData.length
      = ((valuesOfStage id calls).map List.length).sum ∧
    (∀ (i : Nat) (h1 : i < (createSpecMap (addSpecs moduleInfoEmpty calls id)).length)
        (h2 : i < (valuesOfStage id calls).length),
      (createSpecMap (addSpecs moduleInfoEmpty calls id))[i].constantID = i ∧
      (createSpecMap (addSpecs moduleInfoEmpty calls id))[i].size
        = (valuesOfStage id calls)[i].length ∧
      (createSpecMap (addSpecs moduleInfoEmpty calls id))[i].offset
        = (((valuesOfStage id calls).take i).map List.length).sum) ∧
    (∀ (i : Nat) (h : i + 1 < (createSpecMap (addSpecs moduleInfoEmpty calls id)).length),
      (createSpecMap (addSpecs moduleInfoEmpty calls id))[i + 1].offset
        = (createSpecMap (addSpecs moduleInfoEmpty calls id))[i].offset
          + (createSpecMap (addSpecs moduleInfoEmpty calls id))[i].size) ∧
    (∀ (i : Nat) (h : i < (createSpecMap (addSpecs moduleInfoEmpty calls id)).length),
      i + 1 = (createSpecMap (addSpecs moduleInfoEmpty calls id)).length →
      (createSpecMap (addSpecs moduleInfoEmpty calls id))[i].offset
        + (createSpecMap (addSpecs moduleInfoEmpty calls id))[i].size
        = (addSpecs moduleInfoEmpty calls id).specData.length) := by
  obtain ⟨hs, hd⟩ := addSpecs_apply calls moduleInfoEmpty id
  simp only [moduleInfoEmpty, List.nil_append, List.length_nil, Nat.zero_add] at hs hd
  have hpos : ∀ s ∈ (valuesOfStage id calls).map List.length, 0 < s := by
    intro s hs2
    simp only [valuesOfStage, List.map_map, List.mem_map, List.mem_filter] at hs2
    obtain ⟨call, ⟨hmem, _⟩, hlen⟩ := hs2
    have := hbytes call hmem
    rw [← hlen]
    exact List.length_pos.2 this
  have hcount := length_le_sum_of_pos _ hpos
  have hmap : createSpecMap (addSpecs moduleInfoEmpty calls id)
      = exactSpecMap 0 0 ((valuesOfStage id calls).map List.length) := by
    simp only [createSpecMap, hs]
    rw [specMapLoop_eq_exact _ 0 0 [] (by omega) (by omega)]
    simp
  have hlen : (exactSpecMap 0 0 ((valuesOfStage id calls).map List.length)).length
      = (valuesOfStage id calls).length := by
    rw [exactSpecMap_length, List.length_map]
  have hget : ∀ (i : Nat)
      (h1 : i < (exactSpecMap 0 0 ((valuesOfStage id calls).map List.length)).length)
      (h2 : i < ((valuesOfStage id calls).map List.length).length),
      (exactSpecMap 0 0 ((valuesOfStage id calls).map List.length))[i]
        = ⟨i, (((valuesOfStage id calls).map List.length).take i).sum,
            ((valuesOfStage id calls).map List.length)[i]⟩ := by
    intro i h1 h2
    have := exactSpecMap_getElem _ 0 0 i h1 h2
    simpa using this
  simp only [hmap, hd]
  refine ⟨hlen, hs, trivial, ?_, ?_, ?_⟩
  · intro i h1 h2
    rw [hget i h1 (by simpa using h2)]
    simp [List.map_take]
  · intro i h
    have h2 : i + 1 < ((valuesOfStage id calls).map List.length).length := by
      rw [exactSpecMap_length] at h; exact h
    rw [hget (i + 1) h h2, hget i (by omega) (by omega)]
    exact sum_take_succ_of_lt _ i (by omega)
  · intro i h hlast
    have h2 : i < ((valuesOfStage id calls).map List.length).length := by
      rw [exactSpecMap_length] at h; exact h
    rw [hget i h h2]
    rw [exactSpecMap_length] at hlast
    have htake := sum_take_succ_of_lt _ i h2
    rw [hlast, List.take_length] at htake
    exact htake.symm

/-- Witness of C29: a `uint32_t` and a `double` added to the fragment stage, with a
`uint16_t` for the vertex stage in between; the fragment map is `{0, 0, 4}`, `{1, 4, 8}`. -/
theorem specMap_entries_contiguous_witness :
    createSpecMap (addSpecs moduleInfoEmpty specCalls 4) = [⟨0, 0, 4⟩, ⟨1, 4, 8⟩] ∧
    (createSpecMap (addSpecs moduleInfoEmpty specCalls 4)).length
      = (valuesOfStage 4 specCalls).length ∧
    (addSpecs moduleInfoEmpty specCalls 4).specData.length
      = ((valuesOfStage 4 specCalls).map List.length).sum :=
  ⟨by decide,
    (specMap_entries_contiguous specCalls 4 (by decide) (by decide)).1,
    (specMap_entries_contiguous specCalls 4 (by decide) (by decide)).2.2.1⟩

/-! ## Device: queue creation and queue handles -/

theorem addFamilyQueues_eq (flags i n ii : Nat) (deviceQueues : List Queue) :
    addFamilyQueues flags i n ii deviceQueues = deviceQueues ++ familyBlock flags i n ii := by
  induction n generalizing ii deviceQueues with
  | zero => simp [addFamilyQueues, familyBlock]
  | succ n ih => simp [addFamilyQueues, familyBlock, ih]

theorem familyBlock_length (flags i n ii : Nat) : (familyBlock flags i n ii).length = n := by
  induction n generalizing ii with
  | zero => simp [familyBlock]
  | succ n ih => simp [familyBlock, ih]

theorem familyBlocks_length (q : QueueDriver) (i : Nat) (props : List QueueFamilyProperties) :
    (familyBlocks q i props).length
      = (props.map (fun p => min p.queueCount maxQueueCount)).sum := by
  induction props generalizing i with
  | nil => simp [familyBlocks]
  | cons p rest ih => simp [familyBlocks, familyBlock_length, ih]

theorem availableQueuesLoop_queues (q : QueueDriver) (queuePriorities : List Nat) (i : Nat)
    (deviceQueues : List Queue) (ret : List DeviceQueueCreateInfo)
    (props : List QueueFamilyProperties) :
    (availableQueuesLoop q queuePriorities i deviceQueues ret props).1
      = deviceQueues ++ familyBlocks q i props := by
  induction props generalizing i deviceQueues ret with
  | nil => simp [availableQueuesLoop, familyBlocks]
  | cons p rest ih => simp [availableQueuesLoop, familyBlocks, ih, addFamilyQueues_eq]

theorem availableQueuesLoop_infos (q : QueueDriver) (queuePriorities : List Nat) (i : Nat)
    (deviceQueues : List Queue) (ret : List DeviceQueueCreateInfo)
    (props : List QueueFamilyProperties) :
    ∀ info ∈ (availableQueuesLoop q queuePriorities i deviceQueues ret props).2,
      info ∈ ret ∨
        (info.queueCount ≤ maxQueueCount ∧ info.pQueuePriorities = queuePriorities) := by
  induction props generalizing i deviceQueues ret with
  | nil =>
    intro info hinfo
    exact Or.inl (by simpa [availableQueuesLoop] using hinfo)
  | cons p rest ih =>
    intro info hinfo
    simp only [availableQueuesLoop] at hinfo
    rcases ih _ _ _ info hinfo with h | h
    · rcases List.mem_append.1 h with h1 | h1
      · exact Or.inl h1
      · simp only [List.mem_singleton] at h1
        subst h1
        exact Or.inr ⟨Nat.min_le_right _ _, rfl⟩
    · exact Or.inr h

theorem getElem?_append_cons_length (pre rest : List Queue) (a : Queue) :
    (pre ++ a :: rest)[pre.length]? = some a := by
  induction pre with
  | nil => simp
  | cons p pre ih => simpa using ih

theorem set_append_cons_length (pre rest : List Queue) (a b : Queue) :
    (pre ++ a :: rest).set pre.length b = pre ++ b :: rest := by
  induction pre with
  | nil => simp
  | cons p pre ih => simp

theorem allocateFamilyQueues_block (q : QueueDriver) (flags i n ii : Nat)
    (pre post : List Queue) :
    allocateFamilyQueues q i n ii pre.length (pre ++ (familyBlock flags i n ii ++ post))
      = some (pre ++ ((familyBlock flags i n ii).map (withHandle q) ++ post),
          pre.length + n) := by
  induction n generalizing ii pre with
  | zero => simp [allocateFamilyQueues, familyBlock]
  | succ n ih =>
    simp only [familyBlock, List.cons_append, allocateFamilyQueues,
      getElem?_append_cons_length, set_append_cons_length]
    have hrec := ih (ii + 1) (pre ++ [⟨flags, i, ii, q.deviceQueue i ii⟩])
    simp only [List.length_append, List.length_cons, List.length_nil, List.append_assoc,
      List.singleton_append, Nat.zero_add] at hrec
    rw [hrec]
    simp [withHandle, Nat.add_assoc, Nat.add_comm 1 n]

theorem allocateQueuesLoop_blocks (q : QueueDriver) (props : List QueueFamilyProperties)
    (i : Nat) (pre : List Queue) :
    allocateQueuesLoop q i pre.length (pre ++ familyBlocks q i props) props
      = some (pre ++ (familyBlocks q i props).map (withHandle q)) := by
  induction props generalizing i pre with
  | nil => simp [allocateQueuesLoop, familyBlocks]
  | cons p rest ih =>
    simp only [allocateQueuesLoop, familyBlocks, allocateFamilyQueues_block]
    have hrec := ih (i + 1)
      (pre ++ (familyBlock
        (queueUsageFlags p.queueFlags
          (if q.surface ≠ VK_NULL_HANDLE then q.surfaceSupport i else 0))
        i (min p.queueCount maxQueueCount) 0).map (withHandle q))
    simp only [List.length_append, List.length_map, familyBlock_length,
      List.append_assoc] at hrec
    rw [hrec]
    simp

/-- C30: with the same queue-family properties in both passes (instance set,
`queuePriorities_` of `maxQueueCount` entries), `Device::getAvailableQueuesInfo` creates
exactly the sum over the families of `min(queueCount, 32)` queue entries and asks for at most
`32 = queuePriorities_.size()` queues per family, and `Device::allocateQueues` then indexes
`deviceQueues_` in range only: it returns, keeps every entry's flags, family and index, and
gives each entry the handle of the queue with that entry's family and index. -/
theorem allocateQueues_in_range (d : Device) (q : QueueDriver) (hinst : d.instance_ ≠ none)
    (hprio : d.queuePriorities_.length = maxQueueCount) :
    ∃ d1 infos d2, d.getAvailableQueuesInfo q = some (d1, infos) ∧
      d1.deviceQueues_.length
        = (q.properties.map (fun p => min p.queueCount maxQueueCount)).sum ∧
      (∀ info ∈ infos, info.queueCount ≤ maxQueueCount ∧
        info.queueCount ≤ info.pQueuePriorities.length) ∧
      d1.allocateQueues q = some d2 ∧
      d2.deviceQueues_.length = d1.deviceQueues_.length ∧
      ∀ (k : Nat) (h1 : k < d1.deviceQueues_.length) (h2 : k < d2.deviceQueues_.length),
        d2.deviceQueues_[k].flags_ = d1.deviceQueues_[k].flags_ ∧
        d2.deviceQueues_[k].queueFamilyIndex_ = d1.deviceQueues_[k].queueFamilyIndex_ ∧
        d2.deviceQueues_[k].queueIndex_ = d1.deviceQueues_[k].queueIndex_ ∧
        d2.deviceQueues_[k].queue_
          = q.deviceQueue d1.deviceQueues_[k].queueFamilyIndex_
              d1.deviceQueues_[k].queueIndex_ := by
  have hq := availableQueuesLoop_queues q d.queuePriorities_ 0 [] [] q.properties
  simp only [List.nil_append] at hq
  have hloop := allocateQueuesLoop_blocks q q.properties 0 []
  simp only [List.length_nil, List.nil_append] at hloop
  refine ⟨{ d with deviceQueues_ := familyBlocks q 0 q.properties },
    (availableQueuesLoop q d.queuePriorities_ 0 [] [] q.properties).2,
    { d with deviceQueues_ := (familyBlocks q 0 q.properties).map (withHandle q) },
    ?_, ?_, ?_, ?_, ?_, ?_⟩
  · simp [Device.getAvailableQueuesInfo, hinst, hq]
  · exact familyBlocks_length q 0 q.properties
  · intro info hinfo
    rcases availableQueuesLoop_infos q d.queuePriorities_ 0 [] [] q.properties info hinfo
      with h | h
    · simp at h
    · refine ⟨h.1, ?_⟩
      rw [h.2, hprio]
      exact h.1
  · simp [Device.allocateQueues, hloop]
  · simp
  · intro k h1 h2
    simp [withHandle]

/-- Witness of C30: a family of 40 queues and a family of 2 queues give 32 + 2 entries, and
the entry of index 33 is queue 1 of family 1 with the handle 201. -/
theorem allocateQueues_in_range_witness :
    ((deviceBeforeQueues.getAvailableQueuesInfo queueDriverSample).bind
        (fun r => r.1.allocateQueues queueDriverSample)).map
      (fun d2 => (d2.deviceQueues_.length, d2.deviceQueues_[33]?))
      = some (34, some ⟨4, 1, 1, 201⟩) ∧
    ∃ d1 infos d2, deviceBeforeQueues.getAvailableQueuesInfo queueDriverSample
        = some (d1, infos) ∧
      d1.deviceQueues_.length
        = (queueDriverSample.properties.map
            (fun p => min p.queueCount maxQueueCount)).sum ∧
      (∀ info ∈ infos, info.queueCount ≤ maxQueueCount ∧
        info.queueCount ≤ info.pQueuePriorities.length) ∧
      d1.allocateQueues queueDriverSample = some d2 ∧
      d2.deviceQueues_.length = d1.deviceQueues_.length ∧
      ∀ (k : Nat) (h1 : k < d1.deviceQueues_.length) (h2 : k < d2.deviceQueues_.length),
        d2.deviceQueues_[k].flags_ = d1.deviceQueues_[k].flags_ ∧
        d2.deviceQueues_[k].queueFamilyIndex_ = d1.deviceQueues_[k].queueFamilyIndex_ ∧
        d2.deviceQueues_[k].queueIndex_ = d1.deviceQueues_[k].queueIndex_ ∧
        d2.deviceQueues_[k].queue_
          = queueDriverSample.deviceQueue d1.deviceQueues_[k].queueFamilyIndex_
              d1.deviceQueues_[k].queueIndex_ :=
  ⟨by decide,
    allocateQueues_in_range deviceBeforeQueues queueDriverSample (by decide) (by decide)⟩

/-! ## RenderPass::create -/

theorem updateLoop_isSome (rp : RenderPass) (useDepthStencil useResolve : Bool)
    (hd : useDepthStencil = true →
      rp.depthStencilReferenceList_.length = rp.colorReferenceList_.length)
    (hr : useResolve = true →
      rp.resolveReferenceList_.length = rp.colorReferenceList_.length)
    (n i : Nat) (subPasses : List SubpassDescription)
    (hs : subPasses.length = rp.colorReferenceList_.length)
    (hi : i + n = rp.colorReferenceList_.length) :
    (RenderPass.updateLoop rp useDepthStencil useResolve n i subPasses).isSome = true := by
  induction n generalizing i subPasses with
  | zero => simp [RenderPass.updateLoop]
  | succ n ih =>
    have hlt : i < rp.colorReferenceList_.length := by omega
    obtain ⟨sp, h1⟩ : ∃ sp, subPasses[i]? = some sp :=
      ⟨_, List.getElem?_eq_getElem (by omega)⟩
    obtain ⟨colors, h2⟩ : ∃ colors, rp.colorReferenceList_[i]? = some colors :=
      ⟨_, List.getElem?_eq_getElem hlt⟩
    have hstep : ∃ updated, rp.updateSubPass useDepthStencil useResolve subPasses i
        = some updated ∧ updated.length = subPasses.length := by
      cases hD : useDepthStencil <;> cases hR : useResolve
      · simp [RenderPass.updateSubPass, h1, h2]
      · obtain ⟨resolve, h4⟩ : ∃ resolve, rp.resolveReferenceList_[i]? = some resolve :=
          ⟨_, List.getElem?_eq_getElem (by have := hr hR; omega)⟩
        simp [RenderPass.updateSubPass, h1, h2, h4]
      · obtain ⟨depth, h3⟩ : ∃ depth, rp.depthStencilReferenceList_[i]? = some depth :=
          ⟨_, List.getElem?_eq_getElem (by have := hd hD; omega)⟩
        simp [RenderPass.updateSubPass, h1, h2, h3]
      · obtain ⟨depth, h3⟩ : ∃ depth, rp.depthStencilReferenceList_[i]? = some depth :=
          ⟨_, List.getElem?_eq_getElem (by have := hd hD; omega)⟩
        obtain ⟨resolve, h4⟩ : ∃ resolve, rp.resolveReferenceList_[i]? = some resolve :=
          ⟨_, List.getElem?_eq_getElem (by have := hr hR; omega)⟩
        simp [RenderPass.updateSubPass, h1, h2, h3, h4]
    obtain ⟨updated, hs2, hlen⟩ := hstep
    simp only [RenderPass.updateLoop, hs2]
    exact ih (i + 1) updated (by omega) (by omega)

/-- The first loop of `RenderPass::create` stays in range when there is one sub-pass per
colour reference list and each of the depth-stencil and resolve lists is either empty or as
long as the colour list. -/
theorem updateSubpassInfo_isSome (rp : RenderPass)
    (hs : rp.subPasses_.length = rp.colorReferenceList_.length)
    (hd : rp.depthStencilReferenceList_ = [] ∨
      rp.depthStencilReferenceList_.length = rp.colorReferenceList_.length)
    (hr : rp.resolveReferenceList_ = [] ∨
      rp.resolveReferenceList_.length = rp.colorReferenceList_.length) :
    rp.updateSubpassInfo.isSome = true := by
  unfold RenderPass.updateSubpassInfo
  apply updateLoop_isSome
  · intro h
    rcases hd with hd | hd
    · simp [hd] at h
    · exact hd
  · intro h
    rcases hr with hr | hr
    · simp [hr] at h
    · exact hr
  · exact hs
  · simp

/-- C26 (evaluation at the failing input): `addSubPass(colors, depth)` followed by
`addSubPass(colors)`, neither of which throws, leave two colour reference lists and one
depth-stencil reference list; `create()` then reads `depthStencilReferenceList_[1]`, a
position that is not below the size `1` of that list. -/
theorem create_reads_past_depthStencil_list :
    ∃ rp, renderPassEmpty.calls
        [SubPassCall.addSubPassDepth [0] [1], SubPassCall.addSubPass [0]] = some rp ∧
      rp.colorReferenceList_.length = 2 ∧
      rp.subPasses_.length = 2 ∧
      rp.depthStencilReferenceList_.length = 1 ∧
      rp.depthStencilReferenceList_[1]? = none ∧
      rp.updateSubPass true false rp.subPasses_ 0 ≠ none ∧
      rp.updateSubpassInfo = none :=
  ⟨⟨VK_NULL_HANDLE, [⟨1, none, none, none⟩, ⟨1, none, none, none⟩], [[0], [0]], [[1]], []⟩,
    by decide, by decide, by decide, by decide, by decide, by decide, by decide⟩

end vkw
